import Mathlib

/-!
Shallow embedding of the test execution engine of testtools/runtest.py
(`MultipleExceptions` and `RunTest`).

The engine is deterministic once the external collaborators are fixed, so a
run is a pure function of a `Config`: the handler table, the outcome of each
of the three lifecycle hooks (`_run_setup`, `_run_test_method`,
`_run_teardown`) — each either returns normally or raises a fixed exception —
and the case's cleanup stack, each entry carrying the exception its function
raises when invoked, if any.

Python exceptions are modelled by `Exc`: an exact class (a `Nat`), the list of
proper ancestor classes (so `isinstance` respects inheritance), and the
constructor arguments, which for `MultipleExceptions` carry the exc_info
tuples of further exceptions (modelled as the exception values themselves).

Every observable interaction is recorded in an ordered `Event` trace:
`startTest` / `stopTest` on the result, invocation of each hook and of each
cleanup (with its stored arguments), entry into `_run_cleanups`,
`case.onException` (called by `_got_user_exception`), `case._report_traceback`
(called from the cleanup drain), `addSuccess`, and the final handler dispatch
`handler(case, result, e)` performed by `_run_prepared_result`, which is the
single point where a non-success status is reported.
-/

/-- Python exception value: exact class, proper ancestor classes, and `args`.
`isinstance(e, c)` holds when `c` is the class or an ancestor. -/
inductive Exc : Type where
  | mk (cls : Nat) (ancestors : List Nat) (args : List Exc)

/-- Exact class of the exception (`type(e)` / `exc_info[0]`). -/
def Exc.cls : Exc → Nat
  | .mk c _ _ => c

/-- Proper ancestor classes of the exception's class. -/
def Exc.ancestors : Exc → List Nat
  | .mk _ a _ => a

/-- Constructor arguments (`e.args`); for `MultipleExceptions` these are the
captured exc_info entries. -/
def Exc.args : Exc → List Exc
  | .mk _ _ l => l

/-- Class id reserved for `KeyboardInterrupt`. -/
def KeyboardInterruptCls : Nat := 0

/-- Class id reserved for `MultipleExceptions`. -/
def MultipleExceptionsCls : Nat := 1

/-- Python `isinstance(e, c)`: true when `c` is the exact class or an
ancestor class of `e`. -/
def Exc.isInstanceOf (e : Exc) (c : Nat) : Bool :=
  e.cls == c || e.ancestors.contains c

/-- Whether the exception is caught by `except KeyboardInterrupt`. -/
def Exc.isKI (e : Exc) : Bool :=
  e.isInstanceOf KeyboardInterruptCls

mutual

/-- Size of an exception tree, for termination of the drain's flatten loop. -/
def Exc.size : Exc → Nat
  | .mk _ _ l => 1 + sizeList l

/-- Total size of a list of exception trees. -/
def sizeList : List Exc → Nat
  | [] => 0
  | e :: rest => Exc.size e + sizeList rest

end

/-- One entry of the case's `_cleanups` stack: the function (by id), stored
positional and keyword arguments, and the exception the call raises, if any. -/
structure Cleanup : Type where
  fnId : Nat
  args : List Nat
  kwargs : List (Nat × Nat)
  outcome : Option Exc

/-- Observable events of one run, in order of occurrence. -/
inductive Event : Type where
  | startTest
  | stopTest
  | callSetup
  | callTest
  | callTeardown
  | callCleanup (fnId : Nat) (args : List Nat) (kwargs : List (Nat × Nat))
  | drainEnter
  | onException (e : Exc)
  | reportTraceback (e : Exc)
  | addSuccess
  | handlerDispatch (h : Nat) (e : Exc)

/-- External inputs of one run: the handler table (exception class, handler
id) in registration order, the outcome of each lifecycle hook, and the
case's cleanup stack in registration order (`list.append` order; the drain
pops from the end). -/
structure Config : Type where
  handlers : List (Nat × Nat)
  setupOutcome : Option Exc
  bodyOutcome : Option Exc
  teardownOutcome : Option Exc
  cleanups : List Cleanup

/-- First handler of the table whose exception class matches `e` by
`isinstance`, as walked by both `_got_user_exception` and the final
dispatch loop of `_run_prepared_result`. -/
def matchedHandler (handlers : List (Nat × Nat)) (e : Exc) : Option Nat :=
  match handlers with
  | [] => none
  | (c, h) :: rest => if e.isInstanceOf c then some h else matchedHandler rest e

/-- Result of `_run_user` around one hook: normal return, the
`exception_caught` sentinel (exception classified and appended to
`_exceptions`), or an exception propagating out. -/
inductive UserResult : Type where
  | ok
  | caught
  | raised (e : Exc)

/-- One `_run_user(fn, ...)` call around a lifecycle hook whose invocation is
recorded as `callEv` and whose behaviour is `outcome`. Returns the control
result, the exceptions appended to `_exceptions`, and the events emitted:
`KeyboardInterrupt` is re-raised untouched; any other exception goes to
`_got_user_exception`, which first reports it via `case.onException` and then
walks the handler table — on a match the exception is appended and the
sentinel returned, otherwise it is re-raised. -/
def runUserHook (handlers : List (Nat × Nat)) (callEv : Event)
    (outcome : Option Exc) : UserResult × List Exc × List Event :=
  match outcome with
  | none => (.ok, [], [callEv])
  | some e =>
    if e.isKI then (.raised e, [], [callEv])
    else
      match matchedHandler handlers e with
      | some _ => (.caught, [e], [callEv, .onException e])
      | none => (.raised e, [], [callEv, .onException e])

/-- The inner worklist loop of `_run_cleanups`, flattening
`MultipleExceptions` carriers. The list is the worklist with the most
recently pushed entry first (Python pops from the end and extends at the
end, so `extend(args)` becomes pushing `args.reverse` at the head). A
non-carrier entry is reported via `case._report_traceback` and becomes the
new `last_exception`; a carrier (exact class check `exc_info[0] is
MultipleExceptions`) has its `args` pushed back for individual handling. -/
def flattenLoop (ws : List Exc) (last : Option Exc) : Option Exc × List Event :=
  match ws with
  | [] => (last, [])
  | e :: rest =>
    if e.cls == MultipleExceptionsCls then
      flattenLoop (e.args.reverse ++ rest) last
    else
      let r := flattenLoop rest (some e)
      (r.1, Event.reportTraceback e :: r.2)
termination_by sizeList ws
decreasing_by
  · have hApp : ∀ l1 l2 : List Exc,
        sizeList (l1 ++ l2) = sizeList l1 + sizeList l2 := by
      intro l1 l2
      induction l1 with
      | nil => simp [sizeList]
      | cons y ys ih => simp [sizeList, ih]; omega
    have hRev : ∀ l : List Exc, sizeList l.reverse = sizeList l := by
      intro l
      induction l with
      | nil => rfl
      | cons x xs ih =>
        simp only [List.reverse_cons, hApp, sizeList, ih]
        omega
    have hSz : Exc.size e = 1 + sizeList e.args := by
      cases e; simp [Exc.size, Exc.args]
    simp only [sizeList]
    rw [hApp, hRev, hSz]
    omega
  · have hPos : 0 < Exc.size e := by
      cases e
      simp only [Exc.size]
      omega
    simp only [sizeList]
    omega

/-- Result of the drain loop: either the final `last_exception` value, or a
`KeyboardInterrupt` propagating out. -/
inductive DrainResult : Type where
  | ret (last : Option Exc)
  | ki (e : Exc)

/-- The `while self.case._cleanups` loop of `_run_cleanups`, applied to the
remaining stack already in execution order (most recently registered first,
since `pop()` takes from the end). Each entry's invocation is recorded; a
raised `KeyboardInterrupt` is re-raised immediately, leaving the rest of the
stack untouched; any other exception feeds the flatten worklist. -/
def drainLoop (cs : List Cleanup) (last : Option Exc) :
    DrainResult × List Event :=
  match cs with
  | [] => (.ret last, [])
  | c :: rest =>
    let ev := Event.callCleanup c.fnId c.args c.kwargs
    match c.outcome with
    | none =>
      let r := drainLoop rest last
      (r.1, ev :: r.2)
    | some e =>
      if e.isKI then (.ki e, [ev])
      else
        let f := flattenLoop [e] last
        let r := drainLoop rest f.1
        (r.1, ev :: (f.2 ++ r.2))

/-- `_run_cleanups(result)`: drains the case's cleanup stack (popping from
the end, hence the reversal) starting from `last_exception = None`. The
`drainEnter` event records the entry into `_run_cleanups` itself. -/
def runCleanups (cs : List Cleanup) : DrainResult × List Event :=
  let r := drainLoop cs.reverse none
  (r.1, Event.drainEnter :: r.2)

/-- Result of `_run_core`: normal return or a propagating exception. -/
inductive CoreResult : Type where
  | done
  | raised (e : Exc)

/-- Pending `_exceptions` contribution of the drain phase: the returned
`last_exception` is appended by `_run_core` when not `None` (line 136-138),
with no classification against the handler table. -/
def drainPending : DrainResult → List Exc
  | .ret (some e) => [e]
  | _ => []

/-- The `failed` flag of `_run_core` after phases 2-4: set by a classified
body or teardown exception (sentinel returned) or by a non-`None` drain
result. A propagating (unclassified or interrupt) exception does not set
it. -/
def phasesFailed (resB resTd : UserResult) (drR : DrainResult) : Bool :=
  (match resB with | .caught => true | _ => false)
  || (match resTd with | .caught => true | _ => false)
  || (match drR with | .ret (some _) => true | _ => false)

/-- The exception propagating out of the phase 2-4 `try/finally` chain, if
any: an exception raised in a `finally` block replaces the in-flight one, so
a drain `KeyboardInterrupt` wins over a teardown raise, which wins over a
body raise. -/
def phasesRaised (resB resTd : UserResult) (drR : DrainResult) : Option Exc :=
  match drR with
  | .ki e => some e
  | .ret _ =>
    match resTd with
    | .raised e => some e
    | _ => match resB with | .raised e => some e | _ => none

/-- Phases 2-4 of `_run_core` (body, teardown, cleanup drain), given the
three phase results: the `try/finally` chain runs teardown and drain
regardless of earlier raising, collects `_exceptions` appends in phase
order plus the drain result, and the innermost `finally` reports
`addSuccess` exactly when `failed` is still false — even when an exception
is about to propagate. -/
def corePhases (body td : UserResult × List Exc × List Event)
    (dr : DrainResult × List Event) : CoreResult × List Exc × List Event :=
  let failed := phasesFailed body.1 td.1 dr.1
  let pending := body.2.1 ++ td.2.1 ++ drainPending dr.1
  let events := body.2.2 ++ td.2.2 ++ dr.2
    ++ (if failed then [] else [Event.addSuccess])
  match phasesRaised body.1 td.1 dr.1 with
  | some e => (.raised e, pending, events)
  | none => (.done, pending, events)

/-- `_run_core()`: the four-phase pipeline. Setup failure (classified)
runs the drain once and returns, appending the drain result, if any, to
`_exceptions` unclassified; a propagating setup exception terminates the
core at once; otherwise phases 2-4 run as `corePhases`. Returns the control
result, the final `_exceptions` list, and the events. -/
def runCore (cfg : Config) : CoreResult × List Exc × List Event :=
  match runUserHook cfg.handlers .callSetup cfg.setupOutcome with
  | (.raised e, p1, evs1) => (.raised e, p1, evs1)
  | (.caught, p1, evs1) =>
    match runCleanups cfg.cleanups with
    | (.ki e, evs2) => (.raised e, p1, evs1 ++ evs2)
    | (.ret none, evs2) => (.done, p1, evs1 ++ evs2)
    | (.ret (some e), evs2) => (.done, p1 ++ [e], evs1 ++ evs2)
  | (.ok, p1, evs1) =>
    let r := corePhases
      (runUserHook cfg.handlers .callTest cfg.bodyOutcome)
      (runUserHook cfg.handlers .callTeardown cfg.teardownOutcome)
      (runCleanups cfg.cleanups)
    (r.1, p1 ++ r.2.1, evs1 ++ r.2.2)

/-- Observable outcome of one run: the event trace, the exception
propagating out of `run` (if any), and the full content of `_exceptions`
as accumulated across the run, in capture order, before the final pop. -/
structure RunOutput : Type where
  events : List Event
  raised : Option Exc
  captured : List Exc

/-- `_run_prepared_result(result)`: announces `startTest`, runs the core,
and — only on normal core return with a non-empty `_exceptions` — pops the
most recently captured exception and walks the handler table once more,
invoking the first matching handler with `(case, result, e)`; a pop with no
matching handler falls through silently. `stopTest` is announced in a
`finally`, hence on every exit path. `run(result)` with a caller-supplied
result reduces to this after the decorator wrap, which is an external leaf
component. -/
def runPreparedResult (cfg : Config) : RunOutput :=
  match runCore cfg with
  | (.raised e, p, evs) =>
    { events := .startTest :: (evs ++ [.stopTest]), raised := some e,
      captured := p }
  | (.done, p, evs) =>
    match p.getLast? with
    | none =>
      { events := .startTest :: (evs ++ [.stopTest]), raised := none,
        captured := p }
    | some e =>
      let dispatchEvs : List Event :=
        match matchedHandler cfg.handlers e with
        | some h => [.handlerDispatch h e]
        | none => []
      { events := .startTest :: (evs ++ dispatchEvs ++ [.stopTest]),
        raised := none, captured := p }

/-- `RunTest.run` with a caller-supplied result collector. -/
def runTest (cfg : Config) : RunOutput :=
  runPreparedResult cfg

/-- Status-reporting events on the result collector: `addSuccess` or a
dispatched handler's report (the handler is what invokes
addFailure / addError / addSkip etc.). -/
def Event.isStatus : Event → Bool
  | .addSuccess => true
  | .handlerDispatch _ _ => true
  | _ => false

/-- Whether the event is a final handler dispatch. -/
def Event.isDispatch : Event → Bool
  | .handlerDispatch _ _ => true
  | _ => false

/-- Whether the event is the invocation of the test method. -/
def Event.isCallTest : Event → Bool
  | .callTest => true
  | _ => false

/-- Whether the event is the invocation of the teardown hook. -/
def Event.isCallTeardown : Event → Bool
  | .callTeardown => true
  | _ => false

/-- Whether the event is the invocation of a cleanup. -/
def Event.isCallCleanup : Event → Bool
  | .callCleanup _ _ _ => true
  | _ => false

/-- Whether the event is an entry into the cleanup drain. -/
def Event.isDrainEnter : Event → Bool
  | .drainEnter => true
  | _ => false

/-- Whether the event is `startTest`. -/
def Event.isStart : Event → Bool
  | .startTest => true
  | _ => false

/-- Whether the event is `stopTest`. -/
def Event.isStop : Event → Bool
  | .stopTest => true
  | _ => false

/-- The invocation event of a cleanup entry. -/
def cleanupEv (c : Cleanup) : Event :=
  .callCleanup c.fnId c.args c.kwargs

/-- A hook outcome that either returns normally or raises a non-interrupt,
handler-matched exception. -/
def goodOpt (handlers : List (Nat × Nat)) : Option Exc → Prop
  | none => True
  | some e => e.isKI = false ∧ (matchedHandler handlers e).isSome = true

/-- A cleanup whose outcome, if raising, is a non-interrupt, handler-matched
exception. -/
def goodCleanup (handlers : List (Nat × Nat)) (c : Cleanup) : Prop :=
  goodOpt handlers c.outcome

/-- A cleanup whose outcome, if raising, is a non-interrupt, non-carrier,
handler-matched exception. -/
def plainGoodCleanup (handlers : List (Nat × Nat)) (c : Cleanup) : Prop :=
  match c.outcome with
  | none => True
  | some e => e.isKI = false ∧ e.cls ≠ MultipleExceptionsCls ∧
      (matchedHandler handlers e).isSome = true

/-! ### Helper lemmas about the hooks, the flatten loop and the drain -/

theorem flattenLoop_mem (ws : List Exc) (last : Option Exc) :
    ∀ x ∈ (flattenLoop ws last).2, ∃ e, x = Event.reportTraceback e := by
  induction ws, last using flattenLoop.induct with
  | case1 last => simp [flattenLoop]
  | case2 last e rest h ih =>
    intro x hx
    rw [flattenLoop, if_pos h] at hx
    exact ih x hx
  | case3 last e rest h ih =>
    intro x hx
    rw [flattenLoop, if_neg h] at hx
    simp only [List.mem_cons] at hx
    rcases hx with rfl | hx
    · exact ⟨e, rfl⟩
    · exact ih x hx

theorem drainLoop_mem (cs : List Cleanup) (last : Option Exc) :
    ∀ x ∈ (drainLoop cs last).2,
      (∃ f a k, x = Event.callCleanup f a k) ∨ ∃ e, x = Event.reportTraceback e := by
  induction cs generalizing last with
  | nil => simp [drainLoop]
  | cons c rest ih =>
    intro x hx
    cases hc : c.outcome with
    | none =>
      rw [drainLoop, hc] at hx
      simp only [List.mem_cons] at hx
      rcases hx with rfl | hx
      · exact Or.inl ⟨c.fnId, c.args, c.kwargs, rfl⟩
      · exact ih last x hx
    | some e =>
      simp only [drainLoop, hc] at hx
      by_cases hki : e.isKI
      · rw [if_pos hki] at hx
        simp only [List.mem_cons, List.not_mem_nil, or_false] at hx
        exact Or.inl ⟨c.fnId, c.args, c.kwargs, hx⟩
      · rw [if_neg hki] at hx
        simp only [List.mem_cons, List.mem_append] at hx
        rcases hx with rfl | hx | hx
        · exact Or.inl ⟨c.fnId, c.args, c.kwargs, rfl⟩
        · rcases flattenLoop_mem [e] last x hx with ⟨e2, rfl⟩
          exact Or.inr ⟨e2, rfl⟩
        · exact ih _ x hx

theorem countP_flattenLoop (p : Event → Bool)
    (hp : ∀ e, p (Event.reportTraceback e) = false)
    (ws : List Exc) (last : Option Exc) :
    (flattenLoop ws last).2.countP p = 0 := by
  rw [List.countP_eq_zero]
  intro a ha
  rcases flattenLoop_mem ws last a ha with ⟨e, rfl⟩
  simp [hp]

theorem countP_drainLoop (p : Event → Bool)
    (hp1 : ∀ f a k, p (Event.callCleanup f a k) = false)
    (hp2 : ∀ e, p (Event.reportTraceback e) = false)
    (cs : List Cleanup) (last : Option Exc) :
    (drainLoop cs last).2.countP p = 0 := by
  rw [List.countP_eq_zero]
  intro a ha
  rcases drainLoop_mem cs last a ha with ⟨f, ar, k, rfl⟩ | ⟨e, rfl⟩
  · simp [hp1]
  · simp [hp2]

theorem countP_runCleanups (p : Event → Bool)
    (hp1 : ∀ f a k, p (Event.callCleanup f a k) = false)
    (hp2 : ∀ e, p (Event.reportTraceback e) = false)
    (cs : List Cleanup) :
    (runCleanups cs).2.countP p = if p Event.drainEnter then 1 else 0 := by
  simp only [runCleanups, List.countP_cons, countP_drainLoop p hp1 hp2]
  by_cases h : p Event.drainEnter <;> simp [h]

theorem countP_runUserHook (p : Event → Bool)
    (hp : ∀ e, p (Event.onException e) = false)
    (handlers : List (Nat × Nat)) (callEv : Event) (o : Option Exc) :
    ((runUserHook handlers callEv o).2.2).countP p
      = if p callEv then 1 else 0 := by
  cases o with
  | none => simp [runUserHook, List.countP_cons]
  | some e =>
    simp only [runUserHook]
    by_cases hki : e.isKI
    · simp [hki, List.countP_cons]
    · cases hm : matchedHandler handlers e <;>
        simp [hki, hm, List.countP_cons, hp]

theorem runUserHook_none (handlers : List (Nat × Nat)) (callEv : Event) :
    runUserHook handlers callEv none = (.ok, [], [callEv]) := rfl

theorem runUserHook_matched (handlers : List (Nat × Nat)) (callEv : Event)
    (e : Exc) (hki : e.isKI = false) (hid : Nat)
    (hm : matchedHandler handlers e = some hid) :
    runUserHook handlers callEv (some e)
      = (.caught, [e], [callEv, .onException e]) := by
  simp [runUserHook, hki, hm]

theorem runUserHook_unmatched (handlers : List (Nat × Nat)) (callEv : Event)
    (e : Exc) (hki : e.isKI = false)
    (hm : matchedHandler handlers e = none) :
    runUserHook handlers callEv (some e)
      = (.raised e, [], [callEv, .onException e]) := by
  simp [runUserHook, hki, hm]

theorem runUserHook_ki (handlers : List (Nat × Nat)) (callEv : Event)
    (e : Exc) (hki : e.isKI = true) :
    runUserHook handlers callEv (some e) = (.raised e, [], [callEv]) := by
  simp [runUserHook, hki]

theorem runUserHook_pending_shape (handlers : List (Nat × Nat))
    (callEv : Event) (o : Option Exc) :
    ((runUserHook handlers callEv o).1 = .caught ∧
      ∃ e, o = some e ∧ (runUserHook handlers callEv o).2.1 = [e] ∧
        (matchedHandler handlers e).isSome = true ∧ e.isKI = false) ∨
    ((runUserHook handlers callEv o).1 ≠ .caught ∧
      (runUserHook handlers callEv o).2.1 = []) := by
  cases o with
  | none => exact Or.inr ⟨by simp [runUserHook], rfl⟩
  | some e =>
    by_cases hki : e.isKI
    · rw [runUserHook_ki handlers callEv e hki]
      exact Or.inr ⟨by simp, rfl⟩
    · cases hm : matchedHandler handlers e with
      | none =>
        rw [runUserHook_unmatched handlers callEv e (by simpa using hki) hm]
        exact Or.inr ⟨by simp, rfl⟩
      | some hid =>
        rw [runUserHook_matched handlers callEv e (by simpa using hki) hid hm]
        exact Or.inl ⟨rfl, e, rfl, rfl, by simp [hm], by simpa using hki⟩

theorem runUserHook_pending_reported (handlers : List (Nat × Nat))
    (callEv : Event) (o : Option Exc) :
    ∀ e ∈ (runUserHook handlers callEv o).2.1,
      Event.onException e ∈ (runUserHook handlers callEv o).2.2 := by
  cases o with
  | none => simp [runUserHook]
  | some e =>
    by_cases hki : e.isKI
    · rw [runUserHook_ki handlers callEv e hki]
      simp
    · cases hm : matchedHandler handlers e with
      | none =>
        rw [runUserHook_unmatched handlers callEv e (by simpa using hki) hm]
        simp
      | some hid =>
        rw [runUserHook_matched handlers callEv e (by simpa using hki) hid hm]
        simp


theorem flattenLoop_plain (e : Exc) (last : Option Exc)
    (h : e.cls ≠ MultipleExceptionsCls) :
    flattenLoop [e] last = (some e, [Event.reportTraceback e]) := by
  rw [flattenLoop]
  simp only [if_neg (by simpa using h : ¬(e.cls == MultipleExceptionsCls) = true)]
  rw [flattenLoop]

theorem drainLoop_clean (cs : List Cleanup) (last : Option Exc)
    (h : ∀ c ∈ cs, c.outcome = none) :
    drainLoop cs last = (.ret last, cs.map cleanupEv) := by
  induction cs with
  | nil => rfl
  | cons c rest ih =>
    have hc : c.outcome = none := h c (by simp)
    rw [drainLoop, hc, ih (fun x hx => h x (by simp [hx]))]
    rfl

theorem drainLoop_append_clean (xs rest : List Cleanup) (last : Option Exc)
    (h : ∀ c ∈ xs, c.outcome = none) :
    drainLoop (xs ++ rest) last
      = ((drainLoop rest last).1, xs.map cleanupEv ++ (drainLoop rest last).2) := by
  induction xs with
  | nil => simp
  | cons c tail ih =>
    have hc : c.outcome = none := h c (by simp)
    rw [List.cons_append, drainLoop, hc, ih (fun x hx => h x (by simp [hx]))]
    rfl

theorem drainLoop_single_raiser (xs ys : List Cleanup) (c : Cleanup)
    (e : Exc) (last : Option Exc)
    (hxs : ∀ x ∈ xs, x.outcome = none) (hys : ∀ x ∈ ys, x.outcome = none)
    (hc : c.outcome = some e) (hki : e.isKI = false)
    (hcls : e.cls ≠ MultipleExceptionsCls) :
    drainLoop (xs ++ c :: ys) last
      = (.ret (some e),
         xs.map cleanupEv
           ++ cleanupEv c :: Event.reportTraceback e :: ys.map cleanupEv) := by
  rw [drainLoop_append_clean xs (c :: ys) last hxs]
  rw [drainLoop, hc]
  simp only [hki, Bool.false_eq_true, if_false, flattenLoop_plain e last hcls,
    drainLoop_clean ys (some e) hys]
  rfl

theorem drainLoop_ki (xs ys : List Cleanup) (c : Cleanup) (e : Exc)
    (last : Option Exc)
    (hxs : ∀ x ∈ xs, x.outcome = none)
    (hc : c.outcome = some e) (hki : e.isKI = true) :
    drainLoop (xs ++ c :: ys) last
      = (.ki e, xs.map cleanupEv ++ [cleanupEv c]) := by
  rw [drainLoop_append_clean xs (c :: ys) last hxs]
  rw [drainLoop, hc]
  simp [hki, cleanupEv]

theorem drainLoop_no_ki (cs : List Cleanup) (last : Option Exc)
    (h : ∀ c ∈ cs, ∀ e, c.outcome = some e → e.isKI = false) :
    (∃ r, (drainLoop cs last).1 = .ret r) ∧
      (drainLoop cs last).2.filter Event.isCallCleanup = cs.map cleanupEv := by
  induction cs generalizing last with
  | nil => exact ⟨⟨last, rfl⟩, rfl⟩
  | cons c rest ih =>
    cases hc : c.outcome with
    | none =>
      have := ih last (fun x hx => h x (by simp [hx]))
      rw [drainLoop, hc]
      refine ⟨this.1, ?_⟩
      simp only [List.map_cons, List.filter_cons]
      simpa [cleanupEv, Event.isCallCleanup] using this.2
    | some e =>
      have hki : e.isKI = false := h c (by simp) e hc
      rw [drainLoop, hc]
      simp only [hki, Bool.false_eq_true, if_false]
      have hf := ih (flattenLoop [e] last).1 (fun x hx => h x (by simp [hx]))
      refine ⟨hf.1, ?_⟩
      simp only [List.filter_cons, List.filter_append]
      have hfl : (flattenLoop [e] last).2.filter Event.isCallCleanup = [] := by
        rw [List.filter_eq_nil_iff]
        intro a ha
        rcases flattenLoop_mem [e] last a ha with ⟨e2, rfl⟩
        simp [Event.isCallCleanup]
      rw [hfl]
      simpa [cleanupEv, Event.isCallCleanup] using hf.2

theorem flattenLoop_last_reported (ws : List Exc) (last : Option Exc) (e : Exc)
    (h : (flattenLoop ws last).1 = some e) :
    Event.reportTraceback e ∈ (flattenLoop ws last).2 ∨ last = some e := by
  induction ws, last using flattenLoop.induct with
  | case1 last =>
    rw [flattenLoop] at h
    exact Or.inr h
  | case2 last x rest hx ih =>
    rw [flattenLoop] at h ⊢
    simp only [if_pos hx] at h ⊢
    exact ih h
  | case3 last x rest hx ih =>
    rw [flattenLoop] at h ⊢
    simp only [if_neg hx] at h ⊢
    rcases ih h with hmem | hlast
    · exact Or.inl (by simp [hmem])
    · have hxe : x = e := Option.some_inj.mp hlast
      exact Or.inl (by simp [hxe])

theorem drainLoop_ret_prop (Q : Exc → Prop) (cs : List Cleanup)
    (last : Option Exc)
    (h : ∀ c ∈ cs, ∀ e, c.outcome = some e →
      e.isKI = false ∧ e.cls ≠ MultipleExceptionsCls ∧ Q e)
    (hlast : ∀ e, last = some e → Q e) :
    ∃ r, (drainLoop cs last).1 = .ret r ∧ ∀ e, r = some e → Q e := by
  induction cs generalizing last with
  | nil => exact ⟨last, rfl, hlast⟩
  | cons c rest ih =>
    cases hc : c.outcome with
    | none =>
      rw [drainLoop, hc]
      exact ih last (fun x hx => h x (by simp [hx])) hlast
    | some e =>
      obtain ⟨hki, hcls, hQ⟩ := h c (by simp) e hc
      rw [drainLoop, hc]
      simp only [hki, Bool.false_eq_true, if_false,
        flattenLoop_plain e last hcls]
      exact ih (some e) (fun x hx => h x (by simp [hx]))
        (fun e2 he2 => by rw [Option.some_inj.mp he2] at hQ; exact hQ)

theorem drainLoop_ret_reported (cs : List Cleanup) (last : Option Exc)
    (e : Exc) (h : (drainLoop cs last).1 = .ret (some e)) :
    Event.reportTraceback e ∈ (drainLoop cs last).2 ∨ last = some e := by
  induction cs generalizing last with
  | nil =>
    rw [drainLoop] at h
    exact Or.inr (by injection h)
  | cons c rest ih =>
    cases hc : c.outcome with
    | none =>
      rw [drainLoop, hc] at h ⊢
      rcases ih last h with hmem | hl
      · exact Or.inl (by simp [hmem])
      · exact Or.inr hl
    | some e2 =>
      simp only [drainLoop, hc] at h ⊢
      by_cases hki : e2.isKI
      · rw [if_pos hki] at h
        exact absurd h (by simp)
      · rw [if_neg hki] at h ⊢
        rcases ih (flattenLoop [e2] last).1 h with hmem | hl
        · exact Or.inl (by simp [hmem])
        · rcases flattenLoop_last_reported [e2] last e hl with hmem2 | hl2
          · exact Or.inl (by simp [hmem2])
          · exact Or.inr hl2


theorem corePhases_pending (body td : UserResult × List Exc × List Event)
    (dr : DrainResult × List Event) :
    (corePhases body td dr).2.1
      = body.2.1 ++ td.2.1 ++ drainPending dr.1 := by
  rw [corePhases]
  cases phasesRaised body.1 td.1 dr.1 <;> rfl

theorem corePhases_events (body td : UserResult × List Exc × List Event)
    (dr : DrainResult × List Event) :
    (corePhases body td dr).2.2
      = body.2.2 ++ td.2.2 ++ dr.2
          ++ (if phasesFailed body.1 td.1 dr.1 then []
              else [Event.addSuccess]) := by
  rw [corePhases]
  cases phasesRaised body.1 td.1 dr.1 <;> rfl

theorem corePhases_res (body td : UserResult × List Exc × List Event)
    (dr : DrainResult × List Event) :
    (corePhases body td dr).1
      = (match phasesRaised body.1 td.1 dr.1 with
         | some e => CoreResult.raised e
         | none => CoreResult.done) := by
  rw [corePhases]
  cases phasesRaised body.1 td.1 dr.1 <;> rfl

theorem phasesFailed_false (resB resTd : UserResult) (drR : DrainResult)
    (h : phasesFailed resB resTd drR = false) :
    resB ≠ UserResult.caught ∧ resTd ≠ UserResult.caught ∧
      drainPending drR = [] := by
  cases resB <;> cases resTd <;>
    (try simp [phasesFailed] at h) <;>
    rcases drR with _ | e <;>
    first
    | (rename_i r; cases r <;> simp_all [phasesFailed, drainPending])
    | simp_all [phasesFailed, drainPending]

theorem runUserHook_not_caught_nil (handlers : List (Nat × Nat))
    (callEv : Event) (o : Option Exc)
    (hne : (runUserHook handlers callEv o).1 ≠ UserResult.caught) :
    (runUserHook handlers callEv o).2.1 = [] := by
  rcases runUserHook_pending_shape handlers callEv o with ⟨hc, _⟩ | ⟨_, hnil⟩
  · exact absurd hc hne
  · exact hnil

theorem countP_runCore_zero (p : Event → Bool)
    (hpS : p Event.callSetup = false) (hpT : p Event.callTest = false)
    (hpTd : p Event.callTeardown = false)
    (hpE : ∀ e, p (Event.onException e) = false)
    (hpC : ∀ f a k, p (Event.callCleanup f a k) = false)
    (hpR : ∀ e, p (Event.reportTraceback e) = false)
    (hpD : p Event.drainEnter = false) (hpA : p Event.addSuccess = false)
    (cfg : Config) :
    (runCore cfg).2.2.countP p = 0 := by
  have hB1 : ((runUserHook cfg.handlers .callTest cfg.bodyOutcome).2.2).countP
      p = 0 := by
    rw [countP_runUserHook p hpE, hpT]
    rfl
  have hTd1 : ((runUserHook cfg.handlers .callTeardown
      cfg.teardownOutcome).2.2).countP p = 0 := by
    rw [countP_runUserHook p hpE, hpTd]
    rfl
  have hD1 : ((runCleanups cfg.cleanups).2).countP p = 0 := by
    rw [countP_runCleanups p hpC hpR, hpD]
    rfl
  rw [runCore]
  rcases hRS : runUserHook cfg.handlers .callSetup cfg.setupOutcome
    with ⟨resS, pS, evsS⟩
  have hS1 : evsS.countP p = 0 := by
    have h2 := countP_runUserHook p hpE cfg.handlers .callSetup
      cfg.setupOutcome
    rw [hRS, hpS] at h2
    exact h2
  cases resS with
  | raised e => exact hS1
  | caught =>
    rcases hRC : runCleanups cfg.cleanups with ⟨drRes, drEvs⟩
    have hD2 : drEvs.countP p = 0 := by
      rw [hRC] at hD1
      exact hD1
    cases drRes with
    | ki e => simp [List.countP_append, hS1, hD2]
    | ret r => cases r <;> simp [List.countP_append, hS1, hD2]
  | ok =>
    show (evsS ++ (corePhases _ _ _).2.2).countP p = 0
    rw [List.countP_append, corePhases_events, hS1]
    rw [List.countP_append, List.countP_append, List.countP_append]
    rw [hB1, hTd1, hD1]
    cases phasesFailed (runUserHook cfg.handlers Event.callTest
        cfg.bodyOutcome).1
      (runUserHook cfg.handlers Event.callTeardown cfg.teardownOutcome).1
      (runCleanups cfg.cleanups).1 <;>
      simp [hpA]

theorem statusZero_runUserHook (callEv : Event)
    (hc : Event.isStatus callEv = false) (handlers : List (Nat × Nat))
    (o : Option Exc) :
    ((runUserHook handlers callEv o).2.2).countP Event.isStatus = 0 := by
  rw [countP_runUserHook Event.isStatus (fun e => rfl), hc]
  rfl

theorem statusZero_runCleanups (cs : List Cleanup) :
    ((runCleanups cs).2).countP Event.isStatus = 0 := by
  rw [countP_runCleanups Event.isStatus (fun f a k => rfl) (fun e => rfl)]
  rfl

theorem runCore_status_le (cfg : Config) :
    (runCore cfg).2.2.countP Event.isStatus ≤ 1 := by
  have hB1 := statusZero_runUserHook .callTest rfl cfg.handlers cfg.bodyOutcome
  have hTd1 := statusZero_runUserHook .callTeardown rfl cfg.handlers
    cfg.teardownOutcome
  have hD1 := statusZero_runCleanups cfg.cleanups
  rw [runCore]
  rcases hRS : runUserHook cfg.handlers .callSetup cfg.setupOutcome
    with ⟨resS, pS, evsS⟩
  have hS1 : evsS.countP Event.isStatus = 0 := by
    have h2 := statusZero_runUserHook .callSetup rfl cfg.handlers
      cfg.setupOutcome
    rw [hRS] at h2
    exact h2
  cases resS with
  | raised e =>
    show evsS.countP Event.isStatus ≤ 1
    rw [hS1]
    exact Nat.zero_le 1
  | caught =>
    rcases hRC : runCleanups cfg.cleanups with ⟨drRes, drEvs⟩
    have hD2 : drEvs.countP Event.isStatus = 0 := by
      rw [hRC] at hD1
      exact hD1
    cases drRes with
    | ki e => simp [List.countP_append, hS1, hD2]
    | ret r => cases r <;> simp [List.countP_append, hS1, hD2]
  | ok =>
    show (evsS ++ (corePhases _ _ _).2.2).countP Event.isStatus ≤ 1
    rw [List.countP_append, corePhases_events, hS1]
    rw [List.countP_append, List.countP_append, List.countP_append]
    rw [hB1, hTd1, hD1]
    cases phasesFailed (runUserHook cfg.handlers Event.callTest
        cfg.bodyOutcome).1
      (runUserHook cfg.handlers Event.callTeardown cfg.teardownOutcome).1
      (runCleanups cfg.cleanups).1 <;>
      simp [Event.isStatus]

theorem runCore_pending_status (cfg : Config)
    (hne : (runCore cfg).2.1 ≠ []) :
    (runCore cfg).2.2.countP Event.isStatus = 0 := by
  have hB1 := statusZero_runUserHook .callTest rfl cfg.handlers cfg.bodyOutcome
  have hTd1 := statusZero_runUserHook .callTeardown rfl cfg.handlers
    cfg.teardownOutcome
  have hD1 := statusZero_runCleanups cfg.cleanups
  rw [runCore] at hne ⊢
  rcases hRS : runUserHook cfg.handlers .callSetup cfg.setupOutcome
    with ⟨resS, pS, evsS⟩
  rw [hRS] at hne
  have hS1 : evsS.countP Event.isStatus = 0 := by
    have h2 := statusZero_runUserHook .callSetup rfl cfg.handlers
      cfg.setupOutcome
    rw [hRS] at h2
    exact h2
  cases resS with
  | raised e => exact hS1
  | caught =>
    rcases hRC : runCleanups cfg.cleanups with ⟨drRes, drEvs⟩
    have hD2 : drEvs.countP Event.isStatus = 0 := by
      rw [hRC] at hD1
      exact hD1
    cases drRes with
    | ki e => simp [List.countP_append, hS1, hD2]
    | ret r => cases r <;> simp [List.countP_append, hS1, hD2]
  | ok =>
    have hpS : pS = [] := by
      have h3 := runUserHook_not_caught_nil cfg.handlers .callSetup
        cfg.setupOutcome (by rw [hRS]; simp)
      rw [hRS] at h3
      exact h3
    have hne2 : pS ++ (corePhases
        (runUserHook cfg.handlers .callTest cfg.bodyOutcome)
        (runUserHook cfg.handlers .callTeardown cfg.teardownOutcome)
        (runCleanups cfg.cleanups)).2.1 ≠ [] := hne
    show (evsS ++ (corePhases _ _ _).2.2).countP Event.isStatus = 0
    rw [List.countP_append, corePhases_events, hS1]
    rw [List.countP_append, List.countP_append, List.countP_append]
    rw [hB1, hTd1, hD1]
    cases hF : phasesFailed (runUserHook cfg.handlers Event.callTest
        cfg.bodyOutcome).1
      (runUserHook cfg.handlers Event.callTeardown cfg.teardownOutcome).1
      (runCleanups cfg.cleanups).1 with
    | true => simp
    | false =>
      obtain ⟨hb, ht, hd⟩ := phasesFailed_false _ _ _ hF
      have hpB := runUserHook_not_caught_nil cfg.handlers .callTest
        cfg.bodyOutcome hb
      have hpTd := runUserHook_not_caught_nil cfg.handlers .callTeardown
        cfg.teardownOutcome ht
      rw [corePhases_pending, hpS, hpB, hpTd, hd] at hne2
      simp at hne2

theorem runCore_setup_none (h : List (Nat × Nat)) (bo tdo : Option Exc)
    (cs : List Cleanup) :
    runCore ⟨h, none, bo, tdo, cs⟩
      = ((corePhases (runUserHook h .callTest bo)
            (runUserHook h .callTeardown tdo) (runCleanups cs)).1,
         (corePhases (runUserHook h .callTest bo)
            (runUserHook h .callTeardown tdo) (runCleanups cs)).2.1,
         Event.callSetup :: (corePhases (runUserHook h .callTest bo)
            (runUserHook h .callTeardown tdo) (runCleanups cs)).2.2) := rfl

theorem runCore_setup_ki (h : List (Nat × Nat)) (e : Exc) (bo tdo : Option Exc)
    (cs : List Cleanup) (hki : e.isKI = true) :
    runCore ⟨h, some e, bo, tdo, cs⟩
      = (.raised e, [], [Event.callSetup]) := by
  rw [runCore]
  rw [show runUserHook h .callSetup (some e)
    = (.raised e, [], [Event.callSetup]) from runUserHook_ki h _ e hki]

theorem runCore_setup_unmatched (h : List (Nat × Nat)) (e : Exc)
    (bo tdo : Option Exc) (cs : List Cleanup) (hki : e.isKI = false)
    (hm : matchedHandler h e = none) :
    runCore ⟨h, some e, bo, tdo, cs⟩
      = (.raised e, [], [Event.callSetup, Event.onException e]) := by
  rw [runCore]
  rw [show runUserHook h .callSetup (some e)
    = (.raised e, [], [Event.callSetup, Event.onException e]) from
    runUserHook_unmatched h _ e hki hm]

theorem runCore_setup_caught_ret_none (h : List (Nat × Nat)) (e : Exc)
    (hid : Nat) (bo tdo : Option Exc) (cs : List Cleanup) (devs : List Event)
    (hki : e.isKI = false) (hm : matchedHandler h e = some hid)
    (hD : runCleanups cs = (.ret none, devs)) :
    runCore ⟨h, some e, bo, tdo, cs⟩
      = (.done, [e], Event.callSetup :: Event.onException e :: devs) := by
  rw [runCore]
  rw [show runUserHook h .callSetup (some e)
    = (.caught, [e], [Event.callSetup, Event.onException e]) from
    runUserHook_matched h _ e hki hid hm]
  rw [show runCleanups cs = (.ret none, devs) from hD]
  rfl

theorem runCore_setup_caught_ret_some (h : List (Nat × Nat)) (e e2 : Exc)
    (hid : Nat) (bo tdo : Option Exc) (cs : List Cleanup) (devs : List Event)
    (hki : e.isKI = false) (hm : matchedHandler h e = some hid)
    (hD : runCleanups cs = (.ret (some e2), devs)) :
    runCore ⟨h, some e, bo, tdo, cs⟩
      = (.done, [e, e2], Event.callSetup :: Event.onException e :: devs) := by
  rw [runCore]
  rw [show runUserHook h .callSetup (some e)
    = (.caught, [e], [Event.callSetup, Event.onException e]) from
    runUserHook_matched h _ e hki hid hm]
  rw [show runCleanups cs = (.ret (some e2), devs) from hD]
  rfl

theorem runCore_setup_caught_ki (h : List (Nat × Nat)) (e e2 : Exc)
    (hid : Nat) (bo tdo : Option Exc) (cs : List Cleanup) (devs : List Event)
    (hki : e.isKI = false) (hm : matchedHandler h e = some hid)
    (hD : runCleanups cs = (.ki e2, devs)) :
    runCore ⟨h, some e, bo, tdo, cs⟩
      = (.raised e2, [e], Event.callSetup :: Event.onException e :: devs) := by
  rw [runCore]
  rw [show runUserHook h .callSetup (some e)
    = (.caught, [e], [Event.callSetup, Event.onException e]) from
    runUserHook_matched h _ e hki hid hm]
  rw [show runCleanups cs = (.ki e2, devs) from hD]
  rfl

theorem runTest_core_raised (cfg : Config) (e : Exc) (p : List Exc)
    (evs : List Event) (hC : runCore cfg = (.raised e, p, evs)) :
    runTest cfg = ⟨Event.startTest :: (evs ++ [Event.stopTest]), some e, p⟩ := by
  rw [runTest, runPreparedResult, hC]

theorem runTest_core_done_nil (cfg : Config) (evs : List Event)
    (hC : runCore cfg = (.done, [], evs)) :
    runTest cfg = ⟨Event.startTest :: (evs ++ [Event.stopTest]), none, []⟩ := by
  rw [runTest, runPreparedResult, hC]
  rfl

theorem runTest_core_done_matched (cfg : Config) (p : List Exc) (e : Exc)
    (hid : Nat) (evs : List Event) (hC : runCore cfg = (.done, p, evs))
    (hp : p.getLast? = some e) (hm : matchedHandler cfg.handlers e = some hid) :
    runTest cfg
      = ⟨Event.startTest
          :: (evs ++ [Event.handlerDispatch hid e] ++ [Event.stopTest]),
         none, p⟩ := by
  rw [runTest, runPreparedResult, hC]
  simp only [hp, hm]

theorem runTest_core_done_unmatched (cfg : Config) (p : List Exc) (e : Exc)
    (evs : List Event) (hC : runCore cfg = (.done, p, evs))
    (hp : p.getLast? = some e) (hm : matchedHandler cfg.handlers e = none) :
    runTest cfg
      = ⟨Event.startTest :: (evs ++ [] ++ [Event.stopTest]), none, p⟩ := by
  rw [runTest, runPreparedResult, hC]
  simp only [hp, hm]

/-! ### Claims -/

/-- Claim C8: for every run, `startTest` is the first announced event and
`stopTest` the last, and each is announced exactly once — on every exit path,
including runs that terminate by raising an exception out of `run`
(`stopTest` sits in the `finally` of `_run_prepared_result`). -/
theorem claim8_stopTest_every_exit (cfg : Config) :
    (runTest cfg).events.head? = some Event.startTest ∧
    (runTest cfg).events.getLast? = some Event.stopTest ∧
    (runTest cfg).events.countP Event.isStart = 1 ∧
    (runTest cfg).events.countP Event.isStop = 1 := by
  have hstart := countP_runCore_zero Event.isStart rfl rfl rfl (fun e => rfl)
    (fun f a k => rfl) (fun e => rfl) rfl rfl cfg
  have hstop := countP_runCore_zero Event.isStop rfl rfl rfl (fun e => rfl)
    (fun f a k => rfl) (fun e => rfl) rfl rfl cfg
  rcases hC : runCore cfg with ⟨res, p, evs⟩
  rw [hC] at hstart hstop
  cases res with
  | raised e =>
    rw [runTest_core_raised cfg e p evs hC]
    refine ⟨rfl, ?_, ?_, ?_⟩
    · rw [show Event.startTest :: (evs ++ [Event.stopTest])
        = (Event.startTest :: evs) ++ [Event.stopTest] from rfl]
      exact List.getLast?_concat _
    · simp [List.countP_cons, List.countP_append, hstart, Event.isStart]
    · simp [List.countP_cons, List.countP_append, hstop, Event.isStop]
  | done =>
    cases hL : p.getLast? with
    | none =>
      have hp : p = [] := List.getLast?_eq_none_iff.mp hL
      rw [hp] at hC
      rw [runTest_core_done_nil cfg evs hC]
      refine ⟨rfl, ?_, ?_, ?_⟩
      · rw [show Event.startTest :: (evs ++ [Event.stopTest])
          = (Event.startTest :: evs) ++ [Event.stopTest] from rfl]
        exact List.getLast?_concat _
      · simp [List.countP_cons, List.countP_append, hstart, Event.isStart]
      · simp [List.countP_cons, List.countP_append, hstop, Event.isStop]
    | some e =>
      cases hm : matchedHandler cfg.handlers e with
      | some hid =>
        rw [runTest_core_done_matched cfg p e hid evs hC hL hm]
        refine ⟨rfl, ?_, ?_, ?_⟩
        · rw [show Event.startTest
            :: (evs ++ [Event.handlerDispatch hid e] ++ [Event.stopTest])
            = (Event.startTest :: (evs ++ [Event.handlerDispatch hid e]))
              ++ [Event.stopTest] by simp]
          exact List.getLast?_concat _
        · simp [List.countP_cons, List.countP_append, hstart, Event.isStart]
        · simp [List.countP_cons, List.countP_append, hstop, Event.isStop]
      | none =>
        rw [runTest_core_done_unmatched cfg p e evs hC hL hm]
        refine ⟨rfl, ?_, ?_, ?_⟩
        · rw [show Event.startTest :: (evs ++ [] ++ [Event.stopTest])
            = (Event.startTest :: evs) ++ [Event.stopTest] by simp]
          exact List.getLast?_concat _
        · simp [List.countP_cons, List.countP_append, hstart, Event.isStart]
        · simp [List.countP_cons, List.countP_append, hstop, Event.isStop]

theorem mem_of_getLast?_eq {α : Type} (l : List α) (a : α)
    (h : l.getLast? = some a) : a ∈ l := by
  rcases List.mem_getLast?_eq_getLast (show a ∈ l.getLast? from h)
    with ⟨hne, heq⟩
  rw [heq]
  exact List.getLast_mem hne

theorem runUserHook_pending_matched (handlers : List (Nat × Nat))
    (callEv : Event) (o : Option Exc) :
    ∀ e ∈ (runUserHook handlers callEv o).2.1,
      (matchedHandler handlers e).isSome = true := by
  rcases runUserHook_pending_shape handlers callEv o
    with ⟨_, e, _, hps, hm, _⟩ | ⟨_, hnil⟩
  · rw [hps]
    intro x hx
    rw [List.mem_singleton] at hx
    rw [hx]
    exact hm
  · rw [hnil]
    intro x hx
    exact absurd hx (List.not_mem_nil x)

theorem runCleanups_good (handlers : List (Nat × Nat)) (cs : List Cleanup)
    (h : ∀ c ∈ cs, plainGoodCleanup handlers c) :
    ∃ r, (runCleanups cs).1 = .ret r ∧
      ∀ e, r = some e → (matchedHandler handlers e).isSome = true := by
  have h2 : ∀ c ∈ cs.reverse, ∀ e, c.outcome = some e →
      e.isKI = false ∧ e.cls ≠ MultipleExceptionsCls ∧
        (matchedHandler handlers e).isSome = true := by
    intro c hc e he
    have h3 := h c (List.mem_reverse.mp hc)
    rw [plainGoodCleanup, he] at h3
    exact h3
  rcases drainLoop_ret_prop (fun e => (matchedHandler handlers e).isSome
      = true) cs.reverse none h2 (fun e he => by simp at he)
    with ⟨r, hr, hq⟩
  exact ⟨r, by rw [runCleanups]; exact hr, hq⟩

theorem runUserHook_good_res (handlers : List (Nat × Nat)) (callEv : Event)
    (o : Option Exc) (h : goodOpt handlers o) :
    (runUserHook handlers callEv o).1 = .ok ∨
      (runUserHook handlers callEv o).1 = .caught := by
  cases o with
  | none => exact Or.inl (by rw [runUserHook_none])
  | some e =>
    obtain ⟨hki, hm⟩ := h
    rcases Option.isSome_iff_exists.mp hm with ⟨hid, hmeq⟩
    rw [runUserHook_matched handlers callEv e hki hid hmeq]
    exact Or.inr rfl

theorem phasesRaised_none_of_unraised (resB resTd : UserResult)
    (r : Option Exc) (hb : resB = .ok ∨ resB = .caught)
    (ht : resTd = .ok ∨ resTd = .caught) :
    phasesRaised resB resTd (.ret r) = none := by
  rcases hb with rfl | rfl <;> rcases ht with rfl | rfl <;> rfl

theorem phasesFailed_true (resB resTd : UserResult) (drR : DrainResult)
    (h : phasesFailed resB resTd drR = true) :
    resB = .caught ∨ resTd = .caught ∨ ∃ e, drR = .ret (some e) := by
  rcases resB <;> rcases resTd
  · rcases drR with r | e
    · cases r with
      | none => simp [phasesFailed] at h
      | some e => exact Or.inr (Or.inr ⟨e, rfl⟩)
    · simp [phasesFailed] at h
  all_goals first
  | exact Or.inl rfl
  | exact Or.inr (Or.inl rfl)
  | (rcases drR with r | e
     · cases r with
       | none => simp [phasesFailed] at h
       | some e => exact Or.inr (Or.inr ⟨e, rfl⟩)
     · simp [phasesFailed] at h)

theorem runTest_status_le (cfg : Config) :
    (runTest cfg).events.countP Event.isStatus ≤ 1 := by
  rcases hC : runCore cfg with ⟨res, p, evs⟩
  have hle := runCore_status_le cfg
  rw [hC] at hle
  cases res with
  | raised e =>
    rw [runTest_core_raised cfg e p evs hC]
    simpa [List.countP_cons, List.countP_append, Event.isStatus] using hle
  | done =>
    cases hL : p.getLast? with
    | none =>
      have hp : p = [] := List.getLast?_eq_none_iff.mp hL
      rw [hp] at hC
      rw [runTest_core_done_nil cfg evs hC]
      simpa [List.countP_cons, List.countP_append, Event.isStatus] using hle
    | some e =>
      have hpne : (runCore cfg).2.1 ≠ [] := by
        rw [hC]
        intro hpe
        rw [show p = [] from hpe] at hL
        simp at hL
      have hzero := runCore_pending_status cfg hpne
      rw [hC] at hzero
      cases hm : matchedHandler cfg.handlers e with
      | some hid =>
        rw [runTest_core_done_matched cfg p e hid evs hC hL hm]
        simp [List.countP_cons, List.countP_append, Event.isStatus, hzero]
      | none =>
        rw [runTest_core_done_unmatched cfg p e evs hC hL hm]
        simp [List.countP_cons, List.countP_append, Event.isStatus, hzero]

theorem runUserHook_caught_pending_ne (handlers : List (Nat × Nat))
    (callEv : Event) (o : Option Exc)
    (h : (runUserHook handlers callEv o).1 = .caught) :
    (runUserHook handlers callEv o).2.1 ≠ [] := by
  rcases runUserHook_pending_shape handlers callEv o
    with ⟨_, e, _, hps, _, _⟩ | ⟨hne, _⟩
  · rw [hps]
    simp
  · exact absurd h hne

theorem drainPending_matched (handlers : List (Nat × Nat)) (r : Option Exc)
    (hq : ∀ e, r = some e → (matchedHandler handlers e).isSome = true) :
    ∀ x ∈ drainPending (.ret r), (matchedHandler handlers x).isSome = true := by
  cases r with
  | none => simp [drainPending]
  | some e =>
    intro x hx
    simp only [drainPending, List.mem_singleton] at hx
    rw [hx]
    exact hq e rfl

theorem runTest_status_good (h : List (Nat × Nat)) (so bo tdo : Option Exc)
    (cs : List Cleanup) (hgS : goodOpt h so) (hgB : goodOpt h bo)
    (hgT : goodOpt h tdo) (hgC : ∀ c ∈ cs, plainGoodCleanup h c) :
    (runTest ⟨h, so, bo, tdo, cs⟩).events.countP Event.isStatus = 1 := by
  rcases runCleanups_good h cs hgC with ⟨r, hr, hq⟩
  rcases hD : runCleanups cs with ⟨drRes, devs⟩
  have hdr : drRes = .ret r := by
    rw [hD] at hr
    exact hr
  subst hdr
  have hdevs : devs.countP Event.isStatus = 0 := by
    have h2 := statusZero_runCleanups cs
    rw [hD] at h2
    exact h2
  cases so with
  | some e =>
    obtain ⟨hki, hmS⟩ := hgS
    rcases Option.isSome_iff_exists.mp hmS with ⟨hid, hmeq⟩
    cases r with
    | none =>
      have hC := runCore_setup_caught_ret_none h e hid bo tdo cs devs hki
        hmeq hD
      rw [runTest_core_done_matched _ [e] e hid _ hC (by simp) hmeq]
      simp [List.countP_cons, List.countP_append, Event.isStatus, hdevs]
    | some e2 =>
      rcases Option.isSome_iff_exists.mp (hq e2 rfl) with ⟨hid2, hmeq2⟩
      have hC := runCore_setup_caught_ret_some h e e2 hid bo tdo cs devs hki
        hmeq hD
      rw [runTest_core_done_matched _ [e, e2] e2 hid2 _ hC (by simp) hmeq2]
      simp [List.countP_cons, List.countP_append, Event.isStatus, hdevs]
  | none =>
    have hB2 := statusZero_runUserHook .callTest rfl h bo
    have hTd2 := statusZero_runUserHook .callTeardown rfl h tdo
    have hbres := runUserHook_good_res h .callTest bo hgB
    have htres := runUserHook_good_res h .callTeardown tdo hgT
    have hres : (corePhases (runUserHook h .callTest bo)
        (runUserHook h .callTeardown tdo) (runCleanups cs)).1
        = CoreResult.done := by
      rw [corePhases_res]
      have h5 : phasesRaised (runUserHook h .callTest bo).1
          (runUserHook h .callTeardown tdo).1 (runCleanups cs).1 = none := by
        rw [hD]
        exact phasesRaised_none_of_unraised _ _ r hbres htres
      rw [h5]
    cases hF : phasesFailed (runUserHook h .callTest bo).1
        (runUserHook h .callTeardown tdo).1 (runCleanups cs).1 with
    | false =>
      obtain ⟨hbn, htn, hdn⟩ := phasesFailed_false _ _ _ hF
      have hpB := runUserHook_not_caught_nil h .callTest bo hbn
      have hpTd := runUserHook_not_caught_nil h .callTeardown tdo htn
      have hpend : (corePhases (runUserHook h .callTest bo)
          (runUserHook h .callTeardown tdo) (runCleanups cs)).2.1 = [] := by
        rw [corePhases_pending, hpB, hpTd, hdn]
        rfl
      have hC : runCore ⟨h, none, bo, tdo, cs⟩
          = (.done, [], Event.callSetup :: (corePhases
              (runUserHook h .callTest bo)
              (runUserHook h .callTeardown tdo) (runCleanups cs)).2.2) := by
        rw [runCore_setup_none, hres, hpend]
      rw [runTest_core_done_nil _ _ hC]
      rw [corePhases_events, hF]
      simp only [List.countP_cons, List.countP_append, hB2, hTd2,
        statusZero_runCleanups, Event.isStatus, if_false]
      rfl
    | true =>
      have hmatchedAll : ∀ x ∈ (corePhases (runUserHook h .callTest bo)
          (runUserHook h .callTeardown tdo) (runCleanups cs)).2.1,
          (matchedHandler h x).isSome = true := by
        rw [corePhases_pending]
        intro x hx
        rcases List.mem_append.mp hx with hx1 | hx2
        · rcases List.mem_append.mp hx1 with hxb | hxt
          · exact runUserHook_pending_matched h .callTest bo x hxb
          · exact runUserHook_pending_matched h .callTeardown tdo x hxt
        · have hx3 : x ∈ drainPending (DrainResult.ret r) := by
            rw [hD] at hx2
            exact hx2
          exact drainPending_matched h r hq x hx3
      have hne2 : (corePhases (runUserHook h .callTest bo)
          (runUserHook h .callTeardown tdo) (runCleanups cs)).2.1 ≠ [] := by
        rw [corePhases_pending]
        intro heq
        rcases List.append_eq_nil.mp heq with ⟨h12, h3⟩
        rcases List.append_eq_nil.mp h12 with ⟨h1, h2⟩
        rcases phasesFailed_true _ _ _ hF with hb | ht | ⟨e2, hdr2⟩
        · exact runUserHook_caught_pending_ne h .callTest bo hb h1
        · exact runUserHook_caught_pending_ne h .callTeardown tdo ht h2
        · rw [hdr2] at h3
          simp [drainPending] at h3
      obtain ⟨eL, hLa⟩ : ∃ eL, (corePhases (runUserHook h .callTest bo)
          (runUserHook h .callTeardown tdo)
          (runCleanups cs)).2.1.getLast? = some eL := by
        cases hLL : (corePhases (runUserHook h .callTest bo)
            (runUserHook h .callTeardown tdo)
            (runCleanups cs)).2.1.getLast? with
        | none => exact absurd (List.getLast?_eq_none_iff.mp hLL) hne2
        | some x => exact ⟨x, rfl⟩
      have hmL := hmatchedAll eL (mem_of_getLast?_eq _ _ hLa)
      rcases Option.isSome_iff_exists.mp hmL with ⟨hidL, hmLe⟩
      have hC : runCore ⟨h, none, bo, tdo, cs⟩
          = (.done, (corePhases (runUserHook h .callTest bo)
              (runUserHook h .callTeardown tdo) (runCleanups cs)).2.1,
             Event.callSetup :: (corePhases (runUserHook h .callTest bo)
              (runUserHook h .callTeardown tdo) (runCleanups cs)).2.2) := by
        rw [runCore_setup_none, hres]
      rw [runTest_core_done_matched _ _ eL hidL _ hC hLa hmLe]
      rw [corePhases_events, hF]
      simp only [List.countP_cons, List.countP_append, hB2, hTd2,
        statusZero_runCleanups, Event.isStatus, if_true]
      rfl

/-- Claim C2 (amended): at most one status-reporting call (`addSuccess` or a
dispatched handler's report) is made on the result collector per run; exactly
one when every raised exception is a handler-matched, non-interrupt,
non-carrier exception — but not for every run: when the finally-popped
pending exception matches no handler, a normally-terminating run makes no
status call at all. -/
theorem claim2_single_outcome_amended (h : List (Nat × Nat))
    (so bo tdo : Option Exc) (cs : List Cleanup) :
    (runTest ⟨h, so, bo, tdo, cs⟩).events.countP Event.isStatus ≤ 1 ∧
    ((goodOpt h so ∧ goodOpt h bo ∧ goodOpt h tdo ∧
        ∀ c ∈ cs, plainGoodCleanup h c) →
      (runTest ⟨h, so, bo, tdo, cs⟩).events.countP Event.isStatus = 1) :=
  ⟨runTest_status_le _,
   fun hg => runTest_status_good h so bo tdo cs hg.1 hg.2.1 hg.2.2.1 hg.2.2.2⟩

/-- Witness for claim C2 (amended) at a concrete input: a body failure
matched by the handler table yields exactly one status call. -/
theorem claim2_single_outcome_amended_witness :
    (runTest ⟨[(10, 100)], none, some (Exc.mk 10 [] []), none,
      []⟩).events.countP Event.isStatus = 1 :=
  (claim2_single_outcome_amended [(10, 100)] none (some (Exc.mk 10 [] []))
    none []).2
    ⟨trivial, ⟨rfl, rfl⟩, trivial, by simp⟩

/-- Counterexample to claim C2 as stated: a run in which setup raises a
matched exception and a cleanup raises an exception matching no handler
terminates normally with zero status calls on the result collector — not
exactly one. -/
theorem claim2_single_outcome_counterexample :
    (runTest ⟨[(10, 100)], some (Exc.mk 10 [] []), none, none,
        [⟨5, [], [], some (Exc.mk 20 [] [])⟩]⟩).raised = none ∧
    (runTest ⟨[(10, 100)], some (Exc.mk 10 [] []), none, none,
        [⟨5, [], [], some (Exc.mk 20 [] [])⟩]⟩).events.countP
        Event.isStatus = 0 := by
  have hdl := drainLoop_single_raiser [] [] ⟨5, [], [], some (Exc.mk 20 [] [])⟩
    (Exc.mk 20 [] []) none (by simp) (by simp) rfl rfl (by decide)
  have hD : runCleanups [⟨5, [], [], some (Exc.mk 20 [] [])⟩]
      = (.ret (some (Exc.mk 20 [] [])),
         [Event.drainEnter, cleanupEv ⟨5, [], [], some (Exc.mk 20 [] [])⟩,
          Event.reportTraceback (Exc.mk 20 [] [])]) := by
    rw [runCleanups]
    rw [show (([⟨5, [], [], some (Exc.mk 20 [] [])⟩] : List Cleanup)).reverse
      = [] ++ ⟨5, [], [], some (Exc.mk 20 [] [])⟩ :: [] from rfl]
    rw [hdl]
    rfl
  have hC := runCore_setup_caught_ret_some [(10, 100)] (Exc.mk 10 [] [])
    (Exc.mk 20 [] []) 100 none none _ _ rfl rfl hD
  rw [runTest_core_done_unmatched _ [Exc.mk 10 [] [], Exc.mk 20 [] []]
    (Exc.mk 20 [] []) _ hC (by simp) rfl]
  exact ⟨rfl, rfl⟩

/-- Claim C10: when setup raises a matched exception and a cleanup raises a
(non-carrier, non-interrupt) exception matching no handler table entry, the
drain's result is appended to the pending list without classification, the
final dispatch loop falls through silently on it, and `run` returns normally
with no status method invoked — the cleanup failure is dropped. -/
theorem claim10_unmatched_pop_silently_dropped (h : List (Nat × Nat))
    (e1 e2 : Exc) (f : Nat) (a : List Nat) (k : List (Nat × Nat)) (hid : Nat)
    (hki1 : e1.isKI = false) (hm1 : matchedHandler h e1 = some hid)
    (hki2 : e2.isKI = false) (hcls2 : e2.cls ≠ MultipleExceptionsCls)
    (hm2 : matchedHandler h e2 = none) :
    (runTest ⟨h, some e1, none, none, [⟨f, a, k, some e2⟩]⟩).raised = none ∧
    (runTest ⟨h, some e1, none, none,
      [⟨f, a, k, some e2⟩]⟩).events.countP Event.isStatus = 0 ∧
    (runTest ⟨h, some e1, none, none,
      [⟨f, a, k, some e2⟩]⟩).captured = [e1, e2] := by
  have hdl := drainLoop_single_raiser [] [] ⟨f, a, k, some e2⟩ e2 none
    (by simp) (by simp) rfl hki2 hcls2
  have hD : runCleanups [⟨f, a, k, some e2⟩]
      = (.ret (some e2), [Event.drainEnter, cleanupEv ⟨f, a, k, some e2⟩,
          Event.reportTraceback e2]) := by
    rw [runCleanups]
    rw [show (([⟨f, a, k, some e2⟩] : List Cleanup)).reverse
      = [] ++ ⟨f, a, k, some e2⟩ :: [] from rfl]
    rw [hdl]
    rfl
  have hC := runCore_setup_caught_ret_some h e1 e2 hid none none _ _ hki1
    hm1 hD
  rw [runTest_core_done_unmatched _ [e1, e2] e2 _ hC (by simp) hm2]
  refine ⟨rfl, ?_, rfl⟩
  simp [List.countP_cons, List.countP_append, Event.isStatus, cleanupEv]

/-- Witness for claim C10 at a concrete input. -/
theorem claim10_unmatched_pop_silently_dropped_witness :
    (runTest ⟨[(10, 100)], some (Exc.mk 10 [] []), none, none,
      [⟨5, [2], [(3, 4)], some (Exc.mk 20 [] [])⟩]⟩).raised = none ∧
    (runTest ⟨[(10, 100)], some (Exc.mk 10 [] []), none, none,
      [⟨5, [2], [(3, 4)], some (Exc.mk 20 [] [])⟩]⟩).events.countP
      Event.isStatus = 0 ∧
    (runTest ⟨[(10, 100)], some (Exc.mk 10 [] []), none, none,
      [⟨5, [2], [(3, 4)], some (Exc.mk 20 [] [])⟩]⟩).captured
      = [Exc.mk 10 [] [], Exc.mk 20 [] []] :=
  claim10_unmatched_pop_silently_dropped [(10, 100)] (Exc.mk 10 [] [])
    (Exc.mk 20 [] []) 5 [2] [(3, 4)] 100 rfl rfl rfl (by decide) rfl

theorem countP_runTest (p : Event → Bool) (hpStart : p Event.startTest = false)
    (hpStop : p Event.stopTest = false)
    (hpDisp : ∀ hid e, p (Event.handlerDispatch hid e) = false) (cfg : Config) :
    (runTest cfg).events.countP p = (runCore cfg).2.2.countP p := by
  rcases hC : runCore cfg with ⟨res, pd, evs⟩
  cases res with
  | raised e =>
    rw [runTest_core_raised cfg e pd evs hC]
    simp [List.countP_cons, List.countP_append, hpStart, hpStop]
  | done =>
    cases hL : pd.getLast? with
    | none =>
      have hp : pd = [] := List.getLast?_eq_none_iff.mp hL
      rw [hp] at hC
      rw [runTest_core_done_nil cfg evs hC]
      simp [List.countP_cons, List.countP_append, hpStart, hpStop]
    | some e =>
      cases hm : matchedHandler cfg.handlers e with
      | some hid =>
        rw [runTest_core_done_matched cfg pd e hid evs hC hL hm]
        simp [List.countP_cons, List.countP_append, hpStart, hpStop, hpDisp]
      | none =>
        rw [runTest_core_done_unmatched cfg pd e evs hC hL hm]
        simp [List.countP_cons, List.countP_append, hpStart, hpStop]

/-- Claim C1: with every phase exception handler-matched and non-interrupt,
the cleanup drain runs exactly once in every combination; when setup raises,
the test method and teardown are never entered; when setup succeeds, the test
method, teardown and drain each run exactly once regardless of which phases
raised. -/
theorem claim1_total_phase_execution (h : List (Nat × Nat))
    (so bo tdo : Option Exc) (cs : List Cleanup)
    (hgS : goodOpt h so) (hgB : goodOpt h bo) (hgT : goodOpt h tdo)
    (hgC : ∀ c ∈ cs, goodCleanup h c) :
    ((∀ e, so = some e →
       (runTest ⟨h, so, bo, tdo, cs⟩).events.countP Event.isCallTest = 0 ∧
       (runTest ⟨h, so, bo, tdo, cs⟩).events.countP Event.isCallTeardown = 0 ∧
       (runTest ⟨h, so, bo, tdo, cs⟩).events.countP Event.isDrainEnter = 1) ∧
     (so = none →
       (runTest ⟨h, so, bo, tdo, cs⟩).events.countP Event.isCallTest = 1 ∧
       (runTest ⟨h, so, bo, tdo, cs⟩).events.countP Event.isCallTeardown = 1 ∧
       (runTest ⟨h, so, bo, tdo, cs⟩).events.countP Event.isDrainEnter = 1)) := by
  have htest := countP_runTest Event.isCallTest rfl rfl (fun hid e => rfl)
    ⟨h, so, bo, tdo, cs⟩
  have htd := countP_runTest Event.isCallTeardown rfl rfl (fun hid e => rfl)
    ⟨h, so, bo, tdo, cs⟩
  have hdrn := countP_runTest Event.isDrainEnter rfl rfl (fun hid e => rfl)
    ⟨h, so, bo, tdo, cs⟩
  rw [htest, htd, hdrn]
  have hDt := countP_runCleanups Event.isCallTest (fun f a k => rfl)
    (fun e => rfl) cs
  have hDtd := countP_runCleanups Event.isCallTeardown (fun f a k => rfl)
    (fun e => rfl) cs
  have hDd := countP_runCleanups Event.isDrainEnter (fun f a k => rfl)
    (fun e => rfl) cs
  simp only [show Event.isCallTest Event.drainEnter = false from rfl,
    show Event.isCallTeardown Event.drainEnter = false from rfl,
    show Event.isDrainEnter Event.drainEnter = true from rfl,
    Bool.false_eq_true, if_false, if_true] at hDt hDtd hDd
  constructor
  · intro e hso
    subst hso
    obtain ⟨hki, hmS⟩ := hgS
    rcases Option.isSome_iff_exists.mp hmS with ⟨hid, hmeq⟩
    have hnoKI : ∀ c ∈ cs.reverse, ∀ e2, c.outcome = some e2 →
        e2.isKI = false := by
      intro c hc e2 he2
      have h3 := hgC c (List.mem_reverse.mp hc)
      rw [goodCleanup, he2] at h3
      exact h3.1
    rcases (drainLoop_no_ki cs.reverse none hnoKI).1 with ⟨r, hr⟩
    rcases hD : runCleanups cs with ⟨drRes, devs⟩
    have hdr : drRes = .ret r := by
      have h4 : (runCleanups cs).1 = .ret r := by
        rw [runCleanups]
        exact hr
      rw [hD] at h4
      exact h4
    subst hdr
    rw [hD] at hDt hDtd hDd
    cases r with
    | none =>
      rw [runCore_setup_caught_ret_none h e hid bo tdo cs devs hki hmeq hD]
      refine ⟨?_, ?_, ?_⟩ <;>
        simp [List.countP_cons, hDt, hDtd, hDd, Event.isCallTest,
          Event.isCallTeardown, Event.isDrainEnter]
    | some e2 =>
      rw [runCore_setup_caught_ret_some h e e2 hid bo tdo cs devs hki hmeq hD]
      refine ⟨?_, ?_, ?_⟩ <;>
        simp [List.countP_cons, hDt, hDtd, hDd, Event.isCallTest,
          Event.isCallTeardown, Event.isDrainEnter]
  · intro hso
    subst hso
    have hBt := countP_runUserHook Event.isCallTest (fun e => rfl) h
      .callTest bo
    have hBtd := countP_runUserHook Event.isCallTeardown (fun e => rfl) h
      .callTest bo
    have hBd := countP_runUserHook Event.isDrainEnter (fun e => rfl) h
      .callTest bo
    have hTt := countP_runUserHook Event.isCallTest (fun e => rfl) h
      .callTeardown tdo
    have hTtd := countP_runUserHook Event.isCallTeardown (fun e => rfl) h
      .callTeardown tdo
    have hTd2 := countP_runUserHook Event.isDrainEnter (fun e => rfl) h
      .callTeardown tdo
    rw [runCore_setup_none]
    rw [show ((corePhases (runUserHook h .callTest bo)
        (runUserHook h .callTeardown tdo) (runCleanups cs)).1,
        (corePhases (runUserHook h .callTest bo)
        (runUserHook h .callTeardown tdo) (runCleanups cs)).2.1,
        Event.callSetup :: (corePhases (runUserHook h .callTest bo)
        (runUserHook h .callTeardown tdo)
        (runCleanups cs)).2.2).2.2
      = Event.callSetup :: (corePhases (runUserHook h .callTest bo)
        (runUserHook h .callTeardown tdo) (runCleanups cs)).2.2 from rfl]
    rw [corePhases_events]
    cases phasesFailed (runUserHook h .callTest bo).1
        (runUserHook h .callTeardown tdo).1 (runCleanups cs).1 <;>
      refine ⟨?_, ?_, ?_⟩ <;>
      simp [List.countP_cons, List.countP_append, hBt, hBtd, hBd, hTt, hTtd,
        hTd2, hDt, hDtd, hDd, Event.isCallTest, Event.isCallTeardown,
        Event.isDrainEnter]

/-- Witness for claim C1 at a concrete input: setup raises a matched
exception with one registered cleanup — the test method is never entered and
the drain still runs exactly once. -/
theorem claim1_total_phase_execution_witness :
    (runTest ⟨[(10, 100)], some (Exc.mk 10 [] []), none, none,
      [⟨5, [], [], none⟩]⟩).events.countP Event.isCallTest = 0 ∧
    (runTest ⟨[(10, 100)], some (Exc.mk 10 [] []), none, none,
      [⟨5, [], [], none⟩]⟩).events.countP Event.isCallTeardown = 0 ∧
    (runTest ⟨[(10, 100)], some (Exc.mk 10 [] []), none, none,
      [⟨5, [], [], none⟩]⟩).events.countP Event.isDrainEnter = 1 :=
  ((claim1_total_phase_execution [(10, 100)] (some (Exc.mk 10 [] [])) none
      none [⟨5, [], [], none⟩] ⟨rfl, rfl⟩ trivial trivial
      (by
        intro c hc
        rw [List.mem_singleton] at hc
        subst hc
        exact trivial)).1) (Exc.mk 10 [] []) rfl

theorem runCleanups_ret_reported (cs : List Cleanup) (e : Exc)
    (h : (runCleanups cs).1 = .ret (some e)) :
    Event.reportTraceback e ∈ (runCleanups cs).2 := by
  rw [runCleanups] at h ⊢
  rcases drainLoop_ret_reported cs.reverse none e h with hmem | hl
  · simp [hmem]
  · simp at hl

theorem runCore_pending_reported (cfg : Config) :
    ∀ e ∈ (runCore cfg).2.1,
      Event.onException e ∈ (runCore cfg).2.2 ∨
        Event.reportTraceback e ∈ (runCore cfg).2.2 := by
  have hSrep := runUserHook_pending_reported cfg.handlers .callSetup
    cfg.setupOutcome
  have hBrep := runUserHook_pending_reported cfg.handlers .callTest
    cfg.bodyOutcome
  have hTrep := runUserHook_pending_reported cfg.handlers .callTeardown
    cfg.teardownOutcome
  rw [runCore]
  rcases hRS : runUserHook cfg.handlers .callSetup cfg.setupOutcome
    with ⟨resS, pS, evsS⟩
  rw [hRS] at hSrep
  cases resS with
  | raised e2 =>
    intro e he
    exact Or.inl (hSrep e he)
  | caught =>
    rcases hRC : runCleanups cfg.cleanups with ⟨drRes, devs⟩
    cases drRes with
    | ki e2 =>
      intro e he
      exact Or.inl (by simp [hSrep e he])
    | ret r =>
      cases r with
      | none =>
        intro e he
        exact Or.inl (by simp [hSrep e he])
      | some e2 =>
        intro e he
        rcases List.mem_append.mp he with he1 | he2
        · exact Or.inl (by simp [hSrep e he1])
        · rw [List.mem_singleton] at he2
          subst he2
          have hrep : Event.reportTraceback e ∈ (runCleanups cfg.cleanups).2 := by
            apply runCleanups_ret_reported
            rw [hRC]
          rw [hRC] at hrep
          exact Or.inr (by simp [hrep])
  | ok =>
    intro e he
    have he2 : e ∈ (corePhases (runUserHook cfg.handlers .callTest
        cfg.bodyOutcome) (runUserHook cfg.handlers .callTeardown
        cfg.teardownOutcome) (runCleanups cfg.cleanups)).2.1 := by
      rcases List.mem_append.mp he with he1 | he2
      · rw [show pS = [] from by
          have h6 := runUserHook_not_caught_nil cfg.handlers .callSetup
            cfg.setupOutcome (by rw [hRS]; simp)
          rw [hRS] at h6
          exact h6] at he1
        exact absurd he1 (List.not_mem_nil e)
      · exact he2
    rw [corePhases_pending] at he2
    have hevents : ∀ x, x ∈ (runUserHook cfg.handlers .callTest
          cfg.bodyOutcome).2.2 ∨
        x ∈ (runUserHook cfg.handlers .callTeardown
          cfg.teardownOutcome).2.2 ∨
        x ∈ (runCleanups cfg.cleanups).2 →
        x ∈ (Event.callSetup :: evsS) ++ (corePhases (runUserHook
          cfg.handlers .callTest cfg.bodyOutcome) (runUserHook cfg.handlers
          .callTeardown cfg.teardownOutcome)
          (runCleanups cfg.cleanups)).2.2 := by
      intro x hx
      rw [corePhases_events]
      rcases hx with hx | hx | hx <;> simp [hx]
    rcases List.mem_append.mp he2 with he3 | he4
    · rcases List.mem_append.mp he3 with heb | het
      · exact Or.inl (by
          have := hevents (Event.onException e) (Or.inl (hBrep e heb))
          simpa using this)
      · exact Or.inl (by
          have := hevents (Event.onException e) (Or.inr (Or.inl
            (hTrep e het)))
          simpa using this)
    · cases hdp : (runCleanups cfg.cleanups).1 with
      | ki e2 =>
        rw [hdp] at he4
        exact absurd he4 (by simp [drainPending])
      | ret r =>
        cases r with
        | none =>
          rw [hdp] at he4
          exact absurd he4 (by simp [drainPending])
        | some e2 =>
          rw [hdp] at he4
          rw [show drainPending (.ret (some e2)) = [e2] from rfl,
            List.mem_singleton] at he4
          subst he4
          refine Or.inr (by
            have := hevents (Event.reportTraceback e) (Or.inr (Or.inr
              (runCleanups_ret_reported cfg.cleanups e hdp)))
            simpa using this)

/-- Claim C3: at most one handler dispatch happens per run; the dispatched
exception is always the temporally last captured one (the last element of
`_exceptions`); and every captured exception — winner or not — was
individually reported to the case, via `onException` during classification
for phase exceptions or via `_report_traceback` during the drain for cleanup
exceptions. -/
theorem claim3_last_captured_wins (cfg : Config) :
    (runTest cfg).events.countP Event.isDispatch ≤ 1 ∧
    (∀ hid e, Event.handlerDispatch hid e ∈ (runTest cfg).events →
      (runTest cfg).captured.getLast? = some e) ∧
    ∀ e ∈ (runTest cfg).captured,
      Event.onException e ∈ (runTest cfg).events ∨
        Event.reportTraceback e ∈ (runTest cfg).events := by
  have hzero := countP_runCore_zero Event.isDispatch rfl rfl rfl (fun e => rfl)
    (fun f a k => rfl) (fun e => rfl) rfl rfl cfg
  have hrep := runCore_pending_reported cfg
  rcases hC : runCore cfg with ⟨res, pd, evs⟩
  rw [hC] at hzero hrep
  have hmem0 : ∀ x ∈ evs, ¬(Event.isDispatch x = true) := by
    rw [List.countP_eq_zero] at hzero
    exact hzero
  cases res with
  | raised e =>
    rw [runTest_core_raised cfg e pd evs hC]
    refine ⟨?_, ?_, ?_⟩
    · simp only [List.countP_cons, List.countP_append]
      simp [hzero, Event.isDispatch]
    · intro hid e2 hmem
      simp only [List.mem_cons, List.mem_append, List.mem_singleton] at hmem
      rcases hmem with hcon | hin | hcon2
      · exact absurd hcon (by simp)
      · exact absurd (by simp [Event.isDispatch] : Event.isDispatch
          (Event.handlerDispatch hid e2) = true) (hmem0 _ hin)
      · exact absurd hcon2 (by simp)
    · intro e2 he2
      rcases hrep e2 he2 with hin | hin
      · exact Or.inl (by simp [hin])
      · exact Or.inr (by simp [hin])
  | done =>
    cases hL : pd.getLast? with
    | none =>
      have hp : pd = [] := List.getLast?_eq_none_iff.mp hL
      subst hp
      rw [runTest_core_done_nil cfg evs hC]
      refine ⟨?_, ?_, ?_⟩
      · simp only [List.countP_cons, List.countP_append]
        simp [hzero, Event.isDispatch]
      · intro hid e2 hmem
        simp only [List.mem_cons, List.mem_append, List.mem_singleton] at hmem
        rcases hmem with hcon | hin | hcon2
        · exact absurd hcon (by simp)
        · exact absurd (by simp [Event.isDispatch] : Event.isDispatch
            (Event.handlerDispatch hid e2) = true) (hmem0 _ hin)
        · exact absurd hcon2 (by simp)
      · intro e2 he2
        exact absurd he2 (List.not_mem_nil e2)
    | some e =>
      cases hm : matchedHandler cfg.handlers e with
      | some hid0 =>
        rw [runTest_core_done_matched cfg pd e hid0 evs hC hL hm]
        refine ⟨?_, ?_, ?_⟩
        · simp only [List.countP_cons, List.countP_append]
          simp [hzero, Event.isDispatch]
        · intro hid e2 hmem
          simp only [List.mem_cons, List.mem_append,
            List.mem_singleton] at hmem
          rcases hmem with hcon | (hin | hdisp) | hcon2
          · exact absurd hcon (by simp)
          · exact absurd (by simp [Event.isDispatch] : Event.isDispatch
              (Event.handlerDispatch hid e2) = true) (hmem0 _ hin)
          · rcases hdisp with hdisp | hnil
            · injection hdisp with h1 h2
              rw [h2]
              exact hL
            · exact absurd hnil (List.not_mem_nil _)
          · exact absurd hcon2 (by simp)
        · intro e2 he2
          rcases hrep e2 he2 with hin | hin
          · exact Or.inl (by simp [hin])
          · exact Or.inr (by simp [hin])
      | none =>
        rw [runTest_core_done_unmatched cfg pd e evs hC hL hm]
        refine ⟨?_, ?_, ?_⟩
        · simp only [List.countP_cons, List.countP_append]
          simp [hzero, Event.isDispatch]
        · intro hid e2 hmem
          simp only [List.mem_cons, List.mem_append, List.append_nil,
            List.mem_singleton] at hmem
          rcases hmem with hcon | hin | hcon2
          · exact absurd hcon (by simp)
          · exact absurd (by simp [Event.isDispatch] : Event.isDispatch
              (Event.handlerDispatch hid e2) = true) (hmem0 _ hin)
          · exact absurd hcon2 (by simp)
        · intro e2 he2
          rcases hrep e2 he2 with hin | hin
          · exact Or.inl (by simp [hin])
          · exact Or.inr (by simp [hin])

/-- Witness for claim C3 at a concrete input: body and teardown both raise
matched exceptions; the teardown's (captured last) is the one dispatched. -/
theorem claim3_last_captured_wins_witness :
    (runTest ⟨[(10, 100), (11, 101)], none, some (Exc.mk 10 [] []),
      some (Exc.mk 11 [] []), []⟩).captured.getLast?
      = some (Exc.mk 11 [] []) :=
  (claim3_last_captured_wins ⟨[(10, 100), (11, 101)], none,
      some (Exc.mk 10 [] []), some (Exc.mk 11 [] []), []⟩).2.1 101
    (Exc.mk 11 [] [])
    (by
      rw [show (runTest ⟨[(10, 100), (11, 101)], none,
          some (Exc.mk 10 [] []), some (Exc.mk 11 [] []), []⟩).events
        = [Event.startTest, Event.callSetup, Event.callTest,
           Event.onException (Exc.mk 10 [] []), Event.callTeardown,
           Event.onException (Exc.mk 11 [] []), Event.drainEnter,
           Event.handlerDispatch 101 (Exc.mk 11 [] []),
           Event.stopTest] from rfl]
      simp)

theorem filter_runTest (p : Event → Bool) (hpStart : p Event.startTest = false)
    (hpStop : p Event.stopTest = false)
    (hpDisp : ∀ hid e, p (Event.handlerDispatch hid e) = false) (cfg : Config) :
    (runTest cfg).events.filter p = (runCore cfg).2.2.filter p := by
  rcases hC : runCore cfg with ⟨res, pd, evs⟩
  cases res with
  | raised e =>
    rw [runTest_core_raised cfg e pd evs hC]
    simp [List.filter_cons, List.filter_append, hpStart, hpStop]
  | done =>
    cases hL : pd.getLast? with
    | none =>
      have hp : pd = [] := List.getLast?_eq_none_iff.mp hL
      rw [hp] at hC
      rw [runTest_core_done_nil cfg evs hC]
      simp [List.filter_cons, List.filter_append, hpStart, hpStop]
    | some e =>
      cases hm : matchedHandler cfg.handlers e with
      | some hid =>
        rw [runTest_core_done_matched cfg pd e hid evs hC hL hm]
        simp [List.filter_cons, List.filter_append, hpStart, hpStop, hpDisp]
      | none =>
        rw [runTest_core_done_unmatched cfg pd e evs hC hL hm]
        simp [List.filter_cons, List.filter_append, hpStart, hpStop]

theorem runTest_captured (cfg : Config) :
    (runTest cfg).captured = (runCore cfg).2.1 := by
  rcases hC : runCore cfg with ⟨res, pd, evs⟩
  cases res with
  | raised e => rw [runTest_core_raised cfg e pd evs hC]
  | done =>
    cases hL : pd.getLast? with
    | none =>
      have hp : pd = [] := List.getLast?_eq_none_iff.mp hL
      subst hp
      rw [runTest_core_done_nil cfg evs hC]
    | some e =>
      cases hm : matchedHandler cfg.handlers e with
      | some hid => rw [runTest_core_done_matched cfg pd e hid evs hC hL hm]
      | none => rw [runTest_core_done_unmatched cfg pd e evs hC hL hm]

theorem filter_map_cleanupEv (l : List Cleanup) :
    (l.map cleanupEv).filter Event.isCallCleanup = l.map cleanupEv :=
  List.filter_eq_self.mpr (by
    intro a ha
    rcases List.mem_map.mp ha with ⟨c, _, h⟩
    rw [show a = cleanupEv c from h.symm]
    rfl)

/-- Claim C7: the drain pops the cleanup stack from the end, so cleanups
registered in order run in reverse registration order, each invoked exactly
once with its stored positional and keyword arguments; a cleanup raising a
non-interrupt plain exception does not stop the drain — every other cleanup
still runs — and only the raising cleanup's exception is recorded in
`_exceptions`. -/
theorem claim7_cleanup_drain_lifo_total (h : List (Nat × Nat))
    (xs ys : List Cleanup) (c : Cleanup) (e : Exc)
    (hxs : ∀ x ∈ xs, x.outcome = none) (hys : ∀ x ∈ ys, x.outcome = none)
    (hc : c.outcome = some e) (hki : e.isKI = false)
    (hcls : e.cls ≠ MultipleExceptionsCls) :
    (runTest ⟨h, none, none, none, xs ++ c :: ys⟩).events.filter
        Event.isCallCleanup
      = ((xs ++ c :: ys).reverse).map cleanupEv ∧
    (runTest ⟨h, none, none, none, xs ++ c :: ys⟩).captured = [e] := by
  have hrev : (xs ++ c :: ys).reverse = ys.reverse ++ c :: xs.reverse := by
    simp
  have hdl := drainLoop_single_raiser ys.reverse xs.reverse c e none
    (fun x hx => hys x (List.mem_reverse.mp hx))
    (fun x hx => hxs x (List.mem_reverse.mp hx)) hc hki hcls
  have hD : runCleanups (xs ++ c :: ys)
      = (.ret (some e), Event.drainEnter :: (ys.reverse.map cleanupEv
          ++ cleanupEv c :: Event.reportTraceback e
            :: xs.reverse.map cleanupEv)) := by
    rw [runCleanups, hrev, hdl]
  have hC : runCore ⟨h, none, none, none, xs ++ c :: ys⟩
      = (.done, [e], Event.callSetup :: Event.callTest :: Event.callTeardown
          :: Event.drainEnter :: (ys.reverse.map cleanupEv
          ++ cleanupEv c :: Event.reportTraceback e
            :: xs.reverse.map cleanupEv)) := by
    rw [runCore_setup_none, hD]
    simp [corePhases, phasesFailed, phasesRaised, drainPending, runUserHook]
  have hfil := filter_runTest Event.isCallCleanup rfl rfl (fun hid e2 => rfl)
    ⟨h, none, none, none, xs ++ c :: ys⟩
  have hcap := runTest_captured ⟨h, none, none, none, xs ++ c :: ys⟩
  rw [hC] at hfil hcap
  refine ⟨?_, hcap⟩
  rw [hfil, hrev]
  simp only [List.filter_cons, List.filter_append, List.map_append,
    List.map_cons, filter_map_cleanupEv,
    show Event.isCallCleanup Event.callSetup = false from rfl,
    show Event.isCallCleanup Event.callTest = false from rfl,
    show Event.isCallCleanup Event.callTeardown = false from rfl,
    show Event.isCallCleanup Event.drainEnter = false from rfl,
    show Event.isCallCleanup (Event.reportTraceback e) = false from rfl,
    show Event.isCallCleanup (cleanupEv c) = true from rfl,
    Bool.false_eq_true, if_false, if_true]

/-- Witness for claim C7 at a concrete input: cleanups registered A, B, C
with B raising run in order C, B, A with their stored arguments. -/
theorem claim7_cleanup_drain_lifo_total_witness :
    (runTest ⟨[(20, 100)], none, none, none,
      [⟨1, [], [], none⟩, ⟨2, [7], [(8, 9)], some (Exc.mk 20 [] [])⟩,
       ⟨3, [], [], none⟩]⟩).events.filter Event.isCallCleanup
      = [Event.callCleanup 3 [] [], Event.callCleanup 2 [7] [(8, 9)],
         Event.callCleanup 1 [] []] ∧
    (runTest ⟨[(20, 100)], none, none, none,
      [⟨1, [], [], none⟩, ⟨2, [7], [(8, 9)], some (Exc.mk 20 [] [])⟩,
       ⟨3, [], [], none⟩]⟩).captured = [Exc.mk 20 [] []] :=
  claim7_cleanup_drain_lifo_total [(20, 100)] [⟨1, [], [], none⟩]
    [⟨3, [], [], none⟩] ⟨2, [7], [(8, 9)], some (Exc.mk 20 [] [])⟩
    (Exc.mk 20 [] [])
    (by
      intro x hx
      rw [List.mem_singleton] at hx
      rw [hx])
    (by
      intro x hx
      rw [List.mem_singleton] at hx
      rw [hx])
    rfl rfl (by decide)

theorem matchedHandler_append_first (pre : List (Nat × Nat)) (sub h1 : Nat)
    (rest : List (Nat × Nat)) (e : Exc)
    (hpre : ∀ p ∈ pre, e.isInstanceOf p.1 = false)
    (hsub : e.isInstanceOf sub = true) :
    matchedHandler (pre ++ (sub, h1) :: rest) e = some h1 := by
  induction pre with
  | nil =>
    rw [List.nil_append, matchedHandler]
    simp [hsub]
  | cons p tail ih =>
    rcases p with ⟨cl, hh⟩
    rw [List.cons_append, matchedHandler]
    rw [if_neg (by simp [hpre (cl, hh) (by simp)])]
    exact ih (fun q hq => hpre q (by simp [hq]))

/-- Claim C9: with a handler registered for a subclass listed before a
handler for an ancestor class (and no earlier entry matching), an exception
that is an instance of the subclass is classified (captured into
`_exceptions`) and finally dispatched to the subclass's handler, and the
ancestor's handler is never invoked — the only dispatch event carries the
subclass handler's id. -/
theorem claim9_handler_precedence (pre mid post : List (Nat × Nat))
    (sub anc h1 h2 : Nat) (e : Exc)
    (hpre : ∀ p ∈ pre, e.isInstanceOf p.1 = false)
    (hsub : e.isInstanceOf sub = true) (hki : e.isKI = false) :
    (runTest ⟨pre ++ (sub, h1) :: (mid ++ (anc, h2) :: post), some e, none,
      none, []⟩).events.filter Event.isDispatch
      = [Event.handlerDispatch h1 e] ∧
    (runTest ⟨pre ++ (sub, h1) :: (mid ++ (anc, h2) :: post), some e, none,
      none, []⟩).captured = [e] := by
  have hm := matchedHandler_append_first pre sub h1 (mid ++ (anc, h2) :: post)
    e hpre hsub
  have hD : runCleanups ([] : List Cleanup)
      = (.ret none, [Event.drainEnter]) := rfl
  have hC := runCore_setup_caught_ret_none
    (pre ++ (sub, h1) :: (mid ++ (anc, h2) :: post)) e h1 none none []
    [Event.drainEnter] hki hm hD
  rw [runTest_core_done_matched _ [e] e h1 _ hC (by simp) hm]
  constructor
  · simp [List.filter_cons, List.filter_append, Event.isDispatch]
  · rfl

/-- Witness for claim C9 at a concrete input: class 10 has ancestor 5; the
handler table lists (10, 100) before (5, 200); the dispatch goes to handler
100 only. -/
theorem claim9_handler_precedence_witness :
    (runTest ⟨[(10, 100), (5, 200)], some (Exc.mk 10 [5] []), none,
      none, []⟩).events.filter Event.isDispatch
      = [Event.handlerDispatch 100 (Exc.mk 10 [5] [])] ∧
    (runTest ⟨[(10, 100), (5, 200)], some (Exc.mk 10 [5] []), none,
      none, []⟩).captured = [Exc.mk 10 [5] []] :=
  claim9_handler_precedence [] [] [] 10 5 100 200 (Exc.mk 10 [5] [])
    (by intro p hp; exact absurd hp (List.not_mem_nil p)) rfl rfl

theorem flattenLoop_carrier_cons (e : Exc) (rest : List Exc)
    (last : Option Exc) (h : e.cls = MultipleExceptionsCls) :
    flattenLoop (e :: rest) last = flattenLoop (e.args.reverse ++ rest) last := by
  rw [flattenLoop, if_pos (by simp [h])]

theorem flattenLoop_plain_cons (e : Exc) (rest : List Exc) (last : Option Exc)
    (h : e.cls ≠ MultipleExceptionsCls) :
    flattenLoop (e :: rest) last
      = ((flattenLoop rest (some e)).1,
         Event.reportTraceback e :: (flattenLoop rest (some e)).2) := by
  rw [flattenLoop, if_neg (by simpa using h)]

theorem drainLoop_two_raisers (c1 c2 : Cleanup) (e1 e2 : Exc)
    (last : Option Exc) (hc1 : c1.outcome = some e1)
    (hc2 : c2.outcome = some e2) (hki1 : e1.isKI = false)
    (hcls1 : e1.cls ≠ MultipleExceptionsCls) (hki2 : e2.isKI = false)
    (hcls2 : e2.cls ≠ MultipleExceptionsCls) :
    drainLoop [c2, c1] last
      = (.ret (some e1),
         [cleanupEv c2, Event.reportTraceback e2,
          cleanupEv c1, Event.reportTraceback e1]) := by
  simp only [drainLoop, hc2, hki2, Bool.false_eq_true, if_false,
    flattenLoop_plain e2 last hcls2, hc1, hki1,
    flattenLoop_plain e1 (some e2) hcls1]
  rfl

/-- Counterexample to claim C4 as stated: with cleanups B (registered first,
raising class-20) and C (registered second, raising class-21) both failing,
the exception reaching final classification is B's plain class-20 exception
— the most recently raised one — not a MultipleExceptions carrier holding
both: its class differs from `MultipleExceptionsCls` and its payload is
empty. -/
theorem claim4_aggregation_counterexample :
    (runTest ⟨[(20, 100), (21, 101)], none, none, none,
      [⟨1, [], [], some (Exc.mk 20 [] [])⟩,
       ⟨2, [], [], some (Exc.mk 21 [] [])⟩]⟩).captured = [Exc.mk 20 [] []] ∧
    (Exc.mk 20 [] []).cls ≠ MultipleExceptionsCls ∧
    (Exc.mk 20 [] []).args = [] ∧
    (runTest ⟨[(20, 100), (21, 101)], none, none, none,
      [⟨1, [], [], some (Exc.mk 20 [] [])⟩,
       ⟨2, [], [], some (Exc.mk 21 [] [])⟩]⟩).events.filter Event.isDispatch
      = [Event.handlerDispatch 100 (Exc.mk 20 [] [])] := by
  have hdl := drainLoop_two_raisers ⟨1, [], [], some (Exc.mk 20 [] [])⟩
    ⟨2, [], [], some (Exc.mk 21 [] [])⟩ (Exc.mk 20 [] []) (Exc.mk 21 [] [])
    none rfl rfl rfl (by decide) rfl (by decide)
  have hD : runCleanups [⟨1, [], [], some (Exc.mk 20 [] [])⟩,
      ⟨2, [], [], some (Exc.mk 21 [] [])⟩]
      = (.ret (some (Exc.mk 20 [] [])),
         [Event.drainEnter, Event.callCleanup 2 [] [],
          Event.reportTraceback (Exc.mk 21 [] []), Event.callCleanup 1 [] [],
          Event.reportTraceback (Exc.mk 20 [] [])]) := by
    rw [runCleanups, show ([⟨1, [], [], some (Exc.mk 20 [] [])⟩,
      ⟨2, [], [], some (Exc.mk 21 [] [])⟩] : List Cleanup).reverse
      = [⟨2, [], [], some (Exc.mk 21 [] [])⟩,
         ⟨1, [], [], some (Exc.mk 20 [] [])⟩] from rfl, hdl]
    rfl
  have hC : runCore ⟨[(20, 100), (21, 101)], none, none, none,
      [⟨1, [], [], some (Exc.mk 20 [] [])⟩,
       ⟨2, [], [], some (Exc.mk 21 [] [])⟩]⟩
      = (.done, [Exc.mk 20 [] []],
         [Event.callSetup, Event.callTest, Event.callTeardown,
          Event.drainEnter, Event.callCleanup 2 [] [],
          Event.reportTraceback (Exc.mk 21 [] []), Event.callCleanup 1 [] [],
          Event.reportTraceback (Exc.mk 20 [] [])]) := by
    rw [runCore_setup_none, hD]
    simp [corePhases, phasesFailed, phasesRaised, drainPending, runUserHook]
  rw [runTest_core_done_matched _ [Exc.mk 20 [] []] (Exc.mk 20 [] []) 100 _
    hC (by simp) rfl]
  refine ⟨rfl, by decide, rfl, ?_⟩
  simp [List.filter_cons, List.filter_append, Event.isDispatch]

/-- Claim C4 (amended): when two distinct cleanups raise plain exceptions,
both exceptions are individually reported to the case via
`_report_traceback`, but the exception reaching final classification is the
most recently raised one (the earlier-registered cleanup runs later), a
plain exception rather than an aggregate carrier — the engine never
constructs a MultipleExceptions. A cleanup that raises a (possibly nested)
MultipleExceptions carrier has its payload recursively flattened into the
individual members, each reported, and the first member of the payload
recorded as the drain's result. -/
theorem claim4_aggregation_amended (h : List (Nat × Nat)) (f1 f2 : Nat)
    (a1 a2 : List Nat) (k1 k2 : List (Nat × Nat)) (e1 e2 : Exc) (hid : Nat)
    (hki1 : e1.isKI = false) (hcls1 : e1.cls ≠ MultipleExceptionsCls)
    (hki2 : e2.isKI = false) (hcls2 : e2.cls ≠ MultipleExceptionsCls)
    (hm1 : matchedHandler h e1 = some hid) :
    ((runTest ⟨h, none, none, none, [⟨f1, a1, k1, some e1⟩,
        ⟨f2, a2, k2, some e2⟩]⟩).captured = [e1] ∧
     Event.reportTraceback e1 ∈ (runTest ⟨h, none, none, none,
        [⟨f1, a1, k1, some e1⟩, ⟨f2, a2, k2, some e2⟩]⟩).events ∧
     Event.reportTraceback e2 ∈ (runTest ⟨h, none, none, none,
        [⟨f1, a1, k1, some e1⟩, ⟨f2, a2, k2, some e2⟩]⟩).events ∧
     (runTest ⟨h, none, none, none, [⟨f1, a1, k1, some e1⟩,
        ⟨f2, a2, k2, some e2⟩]⟩).events.filter Event.isDispatch
       = [Event.handlerDispatch hid e1]) ∧
    (∀ b1 b2 b3 : Exc, b1.cls ≠ MultipleExceptionsCls →
      b2.cls ≠ MultipleExceptionsCls → b3.cls ≠ MultipleExceptionsCls →
      flattenLoop [Exc.mk MultipleExceptionsCls []
          [b1, Exc.mk MultipleExceptionsCls [] [b2, b3]]] none
        = (some b1, [Event.reportTraceback b3, Event.reportTraceback b2,
            Event.reportTraceback b1])) := by
  constructor
  · have hdl := drainLoop_two_raisers ⟨f1, a1, k1, some e1⟩
      ⟨f2, a2, k2, some e2⟩ e1 e2 none rfl rfl hki1 hcls1 hki2 hcls2
    have hD : runCleanups [⟨f1, a1, k1, some e1⟩, ⟨f2, a2, k2, some e2⟩]
        = (.ret (some e1),
           [Event.drainEnter, Event.callCleanup f2 a2 k2,
            Event.reportTraceback e2, Event.callCleanup f1 a1 k1,
            Event.reportTraceback e1]) := by
      rw [runCleanups, show ([⟨f1, a1, k1, some e1⟩,
        ⟨f2, a2, k2, some e2⟩] : List Cleanup).reverse
        = [⟨f2, a2, k2, some e2⟩, ⟨f1, a1, k1, some e1⟩] from rfl, hdl]
      rfl
    have hC : runCore ⟨h, none, none, none, [⟨f1, a1, k1, some e1⟩,
        ⟨f2, a2, k2, some e2⟩]⟩
        = (.done, [e1],
           [Event.callSetup, Event.callTest, Event.callTeardown,
            Event.drainEnter, Event.callCleanup f2 a2 k2,
            Event.reportTraceback e2, Event.callCleanup f1 a1 k1,
            Event.reportTraceback e1]) := by
      rw [runCore_setup_none, hD]
      simp [corePhases, phasesFailed, phasesRaised, drainPending, runUserHook]
    rw [runTest_core_done_matched _ [e1] e1 hid _ hC (by simp) hm1]
    refine ⟨rfl, by simp, by simp, ?_⟩
    simp [List.filter_cons, List.filter_append, Event.isDispatch]
  · intro b1 b2 b3 hb1 hb2 hb3
    rw [flattenLoop_carrier_cons (Exc.mk MultipleExceptionsCls []
      [b1, Exc.mk MultipleExceptionsCls [] [b2, b3]]) [] none rfl]
    rw [show ((Exc.mk MultipleExceptionsCls []
        [b1, Exc.mk MultipleExceptionsCls [] [b2, b3]]).args.reverse
        ++ ([] : List Exc))
      = [Exc.mk MultipleExceptionsCls [] [b2, b3], b1] from by
        simp [Exc.args]]
    rw [flattenLoop_carrier_cons (Exc.mk MultipleExceptionsCls [] [b2, b3])
      [b1] none rfl]
    rw [show ((Exc.mk MultipleExceptionsCls [] [b2, b3]).args.reverse
        ++ [b1]) = [b3, b2, b1] from by simp [Exc.args]]
    rw [flattenLoop_plain_cons b3 _ _ hb3, flattenLoop_plain_cons b2 _ _ hb2,
      flattenLoop_plain b1 _ hb1]

/-- Witness for claim C4 (amended) at a concrete input. -/
theorem claim4_aggregation_amended_witness :
    (runTest ⟨[(30, 300), (31, 301)], none, none, none,
      [⟨1, [], [], some (Exc.mk 30 [] [])⟩,
       ⟨2, [], [], some (Exc.mk 31 [] [])⟩]⟩).captured = [Exc.mk 30 [] []] ∧
    (runTest ⟨[(30, 300), (31, 301)], none, none, none,
      [⟨1, [], [], some (Exc.mk 30 [] [])⟩,
       ⟨2, [], [], some (Exc.mk 31 [] [])⟩]⟩).events.filter Event.isDispatch
      = [Event.handlerDispatch 300 (Exc.mk 30 [] [])] ∧
    flattenLoop [Exc.mk MultipleExceptionsCls []
        [Exc.mk 40 [] [], Exc.mk MultipleExceptionsCls []
          [Exc.mk 41 [] [], Exc.mk 42 [] []]]] none
      = (some (Exc.mk 40 [] []),
         [Event.reportTraceback (Exc.mk 42 [] []),
          Event.reportTraceback (Exc.mk 41 [] []),
          Event.reportTraceback (Exc.mk 40 [] [])]) := by
  have hmain := claim4_aggregation_amended [(30, 300), (31, 301)] 1 2 [] []
    [] [] (Exc.mk 30 [] []) (Exc.mk 31 [] []) 300 rfl (by decide) rfl
    (by decide) rfl
  exact ⟨hmain.1.1, hmain.1.2.2.2,
    hmain.2 (Exc.mk 40 [] []) (Exc.mk 41 [] []) (Exc.mk 42 [] [])
      (by decide) (by decide) (by decide)⟩

/-- Counterexample to claim C5 as stated: when the test body raises
`KeyboardInterrupt`, the interrupt does propagate out of `run` unmodified,
but a result-collector status method is still invoked for the test — the
`finally` chain runs teardown and the drain, finds the `failed` flag still
false, and calls `addSuccess` before the interrupt escapes. -/
theorem claim5_cancellation_counterexample :
    (runTest ⟨[(10, 100)], none, some (Exc.mk 0 [] []), none, []⟩).raised
      = some (Exc.mk 0 [] []) ∧
    (runTest ⟨[(10, 100)], none, some (Exc.mk 0 [] []), none,
      []⟩).events.countP Event.isStatus = 1 ∧
    Event.addSuccess ∈ (runTest ⟨[(10, 100)], none, some (Exc.mk 0 [] []),
      none, []⟩).events := by
  refine ⟨rfl, rfl, ?_⟩
  rw [show (runTest ⟨[(10, 100)], none, some (Exc.mk 0 [] []), none,
      []⟩).events
    = [Event.startTest, Event.callSetup, Event.callTest, Event.callTeardown,
       Event.drainEnter, Event.addSuccess, Event.stopTest] from rfl]
  simp

/-- Claim C5 (amended): a `KeyboardInterrupt` raised in any phase or cleanup
propagates out of `run` unmodified and is never captured or classified
(`_exceptions` stays empty, no handler dispatch happens). When it arises in
setup, nothing further runs and no status method is invoked, as the original
claim says; but when it arises in the body, the teardown or a cleanup, the
phases sitting in enclosing `finally` blocks still execute (an interrupting
cleanup stops only the remaining drain), and since nothing was classified as
failed, `addSuccess` is invoked before the interrupt escapes. -/
theorem claim5_cancellation_amended :
    (∀ (h : List (Nat × Nat)) (bo tdo : Option Exc) (cs : List Cleanup)
        (e : Exc), e.isKI = true →
      (runTest ⟨h, some e, bo, tdo, cs⟩).raised = some e ∧
      (runTest ⟨h, some e, bo, tdo, cs⟩).captured = [] ∧
      (runTest ⟨h, some e, bo, tdo, cs⟩).events
        = [Event.startTest, Event.callSetup, Event.stopTest]) ∧
    (∀ (h : List (Nat × Nat)) (cs : List Cleanup) (e : Exc),
        e.isKI = true → (∀ c ∈ cs, c.outcome = none) →
      (runTest ⟨h, none, some e, none, cs⟩).raised = some e ∧
      (runTest ⟨h, none, some e, none, cs⟩).captured = [] ∧
      (runTest ⟨h, none, some e, none, cs⟩).events
        = [Event.startTest, Event.callSetup, Event.callTest,
           Event.callTeardown, Event.drainEnter]
          ++ cs.reverse.map cleanupEv ++ [Event.addSuccess,
           Event.stopTest]) ∧
    (∀ (h : List (Nat × Nat)) (cs : List Cleanup) (e : Exc),
        e.isKI = true → (∀ c ∈ cs, c.outcome = none) →
      (runTest ⟨h, none, none, some e, cs⟩).raised = some e ∧
      (runTest ⟨h, none, none, some e, cs⟩).captured = [] ∧
      (runTest ⟨h, none, none, some e, cs⟩).events
        = [Event.startTest, Event.callSetup, Event.callTest,
           Event.callTeardown, Event.drainEnter]
          ++ cs.reverse.map cleanupEv ++ [Event.addSuccess,
           Event.stopTest]) ∧
    (∀ (h : List (Nat × Nat)) (xs ys : List Cleanup) (c : Cleanup) (e : Exc),
        e.isKI = true → c.outcome = some e →
        (∀ x ∈ ys, x.outcome = none) →
      (runTest ⟨h, none, none, none, xs ++ c :: ys⟩).raised = some e ∧
      (runTest ⟨h, none, none, none, xs ++ c :: ys⟩).captured = [] ∧
      (runTest ⟨h, none, none, none, xs ++ c :: ys⟩).events
        = [Event.startTest, Event.callSetup, Event.callTest,
           Event.callTeardown, Event.drainEnter]
          ++ ys.reverse.map cleanupEv
          ++ [cleanupEv c, Event.addSuccess, Event.stopTest]) := by
  refine ⟨?_, ?_, ?_, ?_⟩
  · intro h bo tdo cs e hki
    have hC := runCore_setup_ki h e bo tdo cs hki
    rw [runTest_core_raised _ e [] [Event.callSetup] hC]
    exact ⟨rfl, rfl, rfl⟩
  · intro h cs e hki hclean
    have hD : runCleanups cs
        = (.ret none, Event.drainEnter :: cs.reverse.map cleanupEv) := by
      rw [runCleanups, drainLoop_clean cs.reverse none
        (fun x hx => hclean x (List.mem_reverse.mp hx))]
    have hB := runUserHook_ki h .callTest e hki
    have hC : runCore ⟨h, none, some e, none, cs⟩
        = (.raised e, [], Event.callSetup :: Event.callTest
            :: Event.callTeardown :: Event.drainEnter
            :: (cs.reverse.map cleanupEv ++ [Event.addSuccess])) := by
      rw [runCore_setup_none, hB, hD]
      simp [corePhases, phasesFailed, phasesRaised, drainPending, runUserHook]
    rw [runTest_core_raised _ e _ _ hC]
    refine ⟨rfl, rfl, ?_⟩
    simp
  · intro h cs e hki hclean
    have hD : runCleanups cs
        = (.ret none, Event.drainEnter :: cs.reverse.map cleanupEv) := by
      rw [runCleanups, drainLoop_clean cs.reverse none
        (fun x hx => hclean x (List.mem_reverse.mp hx))]
    have hT := runUserHook_ki h .callTeardown e hki
    have hC : runCore ⟨h, none, none, some e, cs⟩
        = (.raised e, [], Event.callSetup :: Event.callTest
            :: Event.callTeardown :: Event.drainEnter
            :: (cs.reverse.map cleanupEv ++ [Event.addSuccess])) := by
      rw [runCore_setup_none, hT, hD]
      simp [corePhases, phasesFailed, phasesRaised, drainPending, runUserHook]
    rw [runTest_core_raised _ e _ _ hC]
    refine ⟨rfl, rfl, ?_⟩
    simp
  · intro h xs ys c e hki hc hys
    have hrev : (xs ++ c :: ys).reverse = ys.reverse ++ c :: xs.reverse := by
      simp
    have hdl := drainLoop_ki ys.reverse xs.reverse c e none
      (fun x hx => hys x (List.mem_reverse.mp hx)) hc hki
    have hD : runCleanups (xs ++ c :: ys)
        = (.ki e, Event.drainEnter :: (ys.reverse.map cleanupEv
            ++ [cleanupEv c])) := by
      rw [runCleanups, hrev, hdl]
    have hC : runCore ⟨h, none, none, none, xs ++ c :: ys⟩
        = (.raised e, [], Event.callSetup :: Event.callTest
            :: Event.callTeardown :: Event.drainEnter
            :: ((ys.reverse.map cleanupEv ++ [cleanupEv c])
              ++ [Event.addSuccess])) := by
      rw [runCore_setup_none, hD]
      simp [corePhases, phasesFailed, phasesRaised, drainPending, runUserHook]
    rw [runTest_core_raised _ e _ _ hC]
    refine ⟨rfl, rfl, ?_⟩
    simp

/-- Witness for claim C5 (amended) at a concrete input: a cleanup raises
`KeyboardInterrupt`; the later-registered cleanup ran, the earlier-registered
one is never attempted, `addSuccess` fires and the interrupt propagates. -/
theorem claim5_cancellation_amended_witness :
    (runTest ⟨[(10, 100)], none, none, none,
      [⟨1, [], [], none⟩, ⟨2, [], [], some (Exc.mk 0 [] [])⟩,
       ⟨3, [], [], none⟩]⟩).raised = some (Exc.mk 0 [] []) ∧
    (runTest ⟨[(10, 100)], none, none, none,
      [⟨1, [], [], none⟩, ⟨2, [], [], some (Exc.mk 0 [] [])⟩,
       ⟨3, [], [], none⟩]⟩).captured = [] ∧
    (runTest ⟨[(10, 100)], none, none, none,
      [⟨1, [], [], none⟩, ⟨2, [], [], some (Exc.mk 0 [] [])⟩,
       ⟨3, [], [], none⟩]⟩).events
      = [Event.startTest, Event.callSetup, Event.callTest,
         Event.callTeardown, Event.drainEnter]
        ++ ([⟨3, [], [], none⟩] : List Cleanup).reverse.map cleanupEv
        ++ [cleanupEv ⟨2, [], [], some (Exc.mk 0 [] [])⟩, Event.addSuccess,
           Event.stopTest] :=
  (claim5_cancellation_amended).2.2.2 [(10, 100)] [⟨1, [], [], none⟩]
    [⟨3, [], [], none⟩] ⟨2, [], [], some (Exc.mk 0 [] [])⟩ (Exc.mk 0 [] [])
    rfl rfl
    (by
      intro x hx
      rw [List.mem_singleton] at hx
      rw [hx])

/-- Counterexample to claim C6 as stated: when the test body (not setup)
raises an exception matching no handler entry, the exception does propagate
out of `run`, but a status-reporting method is still called: teardown and
drain run in `finally` blocks, `failed` is still false, and `addSuccess` is
invoked before the exception escapes. -/
theorem claim6_unmatched_fatal_counterexample :
    (runTest ⟨[(10, 100)], none, some (Exc.mk 20 [] []), none, []⟩).raised
      = some (Exc.mk 20 [] []) ∧
    (runTest ⟨[(10, 100)], none, some (Exc.mk 20 [] []), none,
      []⟩).events.countP Event.isStatus = 1 ∧
    Event.addSuccess ∈ (runTest ⟨[(10, 100)], none,
      some (Exc.mk 20 [] []), none, []⟩).events := by
  refine ⟨rfl, rfl, ?_⟩
  rw [show (runTest ⟨[(10, 100)], none, some (Exc.mk 20 [] []), none,
      []⟩).events
    = [Event.startTest, Event.callSetup, Event.callTest,
       Event.onException (Exc.mk 20 [] []), Event.callTeardown,
       Event.drainEnter, Event.addSuccess, Event.stopTest] from rfl]
  simp

/-- Claim C6 (amended): an exception matching no handler table entry always
propagates out of `run` itself, after being reported to the case via
`onException`. When it arises in setup — the claim's own example — no
status-reporting method is called and nothing further runs; but when it
arises in the body or in the teardown, the remaining phases still run in
`finally` blocks and `addSuccess` is invoked before the exception escapes,
so the "no status call" part does not hold for every phase. -/
theorem claim6_unmatched_fatal_amended :
    (∀ (h : List (Nat × Nat)) (bo tdo : Option Exc) (cs : List Cleanup)
        (e : Exc), e.isKI = false → matchedHandler h e = none →
      (runTest ⟨h, some e, bo, tdo, cs⟩).raised = some e ∧
      (runTest ⟨h, some e, bo, tdo, cs⟩).events.countP Event.isStatus = 0 ∧
      (runTest ⟨h, some e, bo, tdo, cs⟩).events
        = [Event.startTest, Event.callSetup, Event.onException e,
           Event.stopTest]) ∧
    (∀ (h : List (Nat × Nat)) (cs : List Cleanup) (e : Exc),
        e.isKI = false → matchedHandler h e = none →
        (∀ c ∈ cs, c.outcome = none) →
      (runTest ⟨h, none, some e, none, cs⟩).raised = some e ∧
      Event.addSuccess ∈ (runTest ⟨h, none, some e, none, cs⟩).events ∧
      (runTest ⟨h, none, some e, none, cs⟩).events
        = [Event.startTest, Event.callSetup, Event.callTest,
           Event.onException e, Event.callTeardown, Event.drainEnter]
          ++ cs.reverse.map cleanupEv
          ++ [Event.addSuccess, Event.stopTest]) ∧
    (∀ (h : List (Nat × Nat)) (cs : List Cleanup) (e : Exc),
        e.isKI = false → matchedHandler h e = none →
        (∀ c ∈ cs, c.outcome = none) →
      (runTest ⟨h, none, none, some e, cs⟩).raised = some e ∧
      Event.addSuccess ∈ (runTest ⟨h, none, none, some e, cs⟩).events ∧
      (runTest ⟨h, none, none, some e, cs⟩).events
        = [Event.startTest, Event.callSetup, Event.callTest,
           Event.callTeardown, Event.onException e, Event.drainEnter]
          ++ cs.reverse.map cleanupEv
          ++ [Event.addSuccess, Event.stopTest]) := by
  refine ⟨?_, ?_, ?_⟩
  · intro h bo tdo cs e hki hm
    have hC := runCore_setup_unmatched h e bo tdo cs hki hm
    rw [runTest_core_raised _ e [] [Event.callSetup, Event.onException e] hC]
    exact ⟨rfl, rfl, rfl⟩
  · intro h cs e hki hm hclean
    have hD : runCleanups cs
        = (.ret none, Event.drainEnter :: cs.reverse.map cleanupEv) := by
      rw [runCleanups, drainLoop_clean cs.reverse none
        (fun x hx => hclean x (List.mem_reverse.mp hx))]
    have hB := runUserHook_unmatched h .callTest e hki hm
    have hC : runCore ⟨h, none, some e, none, cs⟩
        = (.raised e, [], Event.callSetup :: Event.callTest
            :: Event.onException e :: Event.callTeardown :: Event.drainEnter
            :: (cs.reverse.map cleanupEv ++ [Event.addSuccess])) := by
      rw [runCore_setup_none, hB, hD]
      simp [corePhases, phasesFailed, phasesRaised, drainPending, runUserHook]
    rw [runTest_core_raised _ e _ _ hC]
    refine ⟨rfl, by simp, by simp⟩
  · intro h cs e hki hm hclean
    have hD : runCleanups cs
        = (.ret none, Event.drainEnter :: cs.reverse.map cleanupEv) := by
      rw [runCleanups, drainLoop_clean cs.reverse none
        (fun x hx => hclean x (List.mem_reverse.mp hx))]
    have hT := runUserHook_unmatched h .callTeardown e hki hm
    have hC : runCore ⟨h, none, none, some e, cs⟩
        = (.raised e, [], Event.callSetup :: Event.callTest
            :: Event.callTeardown :: Event.onException e :: Event.drainEnter
            :: (cs.reverse.map cleanupEv ++ [Event.addSuccess])) := by
      rw [runCore_setup_none, hT, hD]
      simp [corePhases, phasesFailed, phasesRaised, drainPending, runUserHook]
    rw [runTest_core_raised _ e _ _ hC]
    refine ⟨rfl, by simp, by simp⟩

/-- Witness for claim C6 (amended) at a concrete input: setup raises an
unmatched class-20 exception; it propagates and no status call occurs. -/
theorem claim6_unmatched_fatal_amended_witness :
    (runTest ⟨[(10, 100)], some (Exc.mk 20 [] []), none, none, []⟩).raised
      = some (Exc.mk 20 [] []) ∧
    (runTest ⟨[(10, 100)], some (Exc.mk 20 [] []), none, none,
      []⟩).events.countP Event.isStatus = 0 ∧
    (runTest ⟨[(10, 100)], some (Exc.mk 20 [] []), none, none, []⟩).events
      = [Event.startTest, Event.callSetup,
         Event.onException (Exc.mk 20 [] []), Event.stopTest] :=
  (claim6_unmatched_fatal_amended).1 [(10, 100)] none none []
    (Exc.mk 20 [] []) rfl rfl
